import Mathlib

/-!
Verification of the story registry and configuration-resolution engine of
src/lib/client-api/src/story_store.ts (class StoryStore).

The TypeScript code is shallowly embedded: JavaScript values are modelled by
the inductive JVal, objects by insertion-ordered association lists of fields
(JS objects preserve insertion order for string keys; assigning to an existing
key keeps its position), and class methods by pure functions on an explicit
StoreState record.  Methods that can throw return Except.  Calls to the
per-story resource handle (the hooks collaborator, hooks.clean()) are recorded
as a trace of released handle serials.  External collaborators that live
outside the analysed sources (the channel, the logger, the decorator composer
passed in by the caller, the HooksContext implementation) are modelled at
their interface boundary only, as the specification prescribes.
-/

set_option maxRecDepth 4000

namespace StorybookClientApi

/-- A JavaScript value as used by the story store: primitives and plain
objects with an ordered field list.  Functions stored inside parameter
objects are represented by opaque numbered tokens (constructor func);
arrays do not occur in the value space the store manipulates in the claims
under study and are not modelled. -/
inductive JVal where
  | null : JVal
  | bool : Bool → JVal
  | num : Int → JVal
  | str : String → JVal
  | func : Nat → JVal
  | obj : List (String × JVal) → JVal
deriving Repr

/-- Object field lists. -/
abbrev JObj := List (String × JVal)

mutual
/-- Structural equality test for JVal. -/
def JVal.beq : JVal → JVal → Bool
  | .null, .null => true
  | .bool a, .bool b => a == b
  | .num a, .num b => a == b
  | .str a, .str b => a == b
  | .func a, .func b => a == b
  | .obj a, .obj b => JVal.beqFields a b
  | _, _ => false

/-- Structural equality test for field lists. -/
def JVal.beqFields : JObj → JObj → Bool
  | [], [] => true
  | (k, v) :: xs, (k2, v2) :: ys => k == k2 && JVal.beq v v2 && JVal.beqFields xs ys
  | _, _ => false
end

mutual
theorem JVal.beq_iff : ∀ a b : JVal, JVal.beq a b = true ↔ a = b
  | .null, .null => by simp [JVal.beq]
  | .bool a, .bool b => by simp [JVal.beq]
  | .num a, .num b => by simp [JVal.beq]
  | .str a, .str b => by simp [JVal.beq]
  | .func a, .func b => by simp [JVal.beq]
  | .obj a, .obj b => by
      simp only [JVal.beq, JVal.beqFields_iff a b]
      constructor
      · intro h; rw [h]
      · intro h; cases h; rfl
  | .null, .bool _ | .null, .num _ | .null, .str _ | .null, .func _ | .null, .obj _
  | .bool _, .null | .bool _, .num _ | .bool _, .str _ | .bool _, .func _ | .bool _, .obj _
  | .num _, .null | .num _, .bool _ | .num _, .str _ | .num _, .func _ | .num _, .obj _
  | .str _, .null | .str _, .bool _ | .str _, .num _ | .str _, .func _ | .str _, .obj _
  | .func _, .null | .func _, .bool _ | .func _, .num _ | .func _, .str _ | .func _, .obj _
  | .obj _, .null | .obj _, .bool _ | .obj _, .num _ | .obj _, .str _ | .obj _, .func _ => by
      simp [JVal.beq]

theorem JVal.beqFields_iff : ∀ a b : JObj, JVal.beqFields a b = true ↔ a = b
  | [], [] => by simp [JVal.beqFields]
  | (k, v) :: xs, (k2, v2) :: ys => by
      simp [JVal.beqFields, JVal.beq_iff v v2, JVal.beqFields_iff xs ys, and_assoc]
  | [], (_, _) :: _ => by simp [JVal.beqFields]
  | (_, _) :: _, [] => by simp [JVal.beqFields]
end

instance : DecidableEq JVal := fun a b =>
  decidable_of_iff (JVal.beq a b = true) (JVal.beq_iff a b)

/-- JavaScript truthiness of a value. -/
def JVal.truthy : JVal → Bool
  | .null => false
  | .bool b => b
  | .num n => n != 0
  | .str s => s != ""
  | .func _ => true
  | .obj _ => true

/-- Truthiness of a possibly-absent value (absent, i.e. undefined, is falsy). -/
def truthyOpt : Option JVal → Bool
  | none => false
  | some v => v.truthy

/-- Keyed lookup in an insertion-ordered string-keyed record (JS obj[key]):
the value of the first field with the key. -/
def klookup {β : Type} (m : List (String × β)) (k : String) : Option β :=
  match m.find? (fun f => f.1 == k) with
  | some f => some f.2
  | none => none

/-- Keyed assignment obj[key] = v with JS object semantics: an existing key
keeps its position in the field order, a new key is appended. -/
def kset {β : Type} (m : List (String × β)) (k : String) (v : β) :
    List (String × β) :=
  match m with
  | [] => [(k, v)]
  | (k2, v2) :: rest => if k2 == k then (k, v) :: rest else (k2, v2) :: kset rest k v

/-- Property read o[k] on a field list. -/
def oget (o : JObj) (k : String) : Option JVal := klookup o k

/-- Property assignment o[k] = v on a field list. -/
def oset (o : JObj) (k : String) (v : JVal) : JObj := kset o k v

/-- JS object spread into an accumulator: each field of the source is
assigned in order, as in Object.assign / a spread position. -/
def ospread (acc : JObj) (src : JObj) : JObj :=
  src.foldl (fun a f => oset a f.1 f.2) acc

/-- Property read o.k on a general value; non-objects have no own properties
that the store reads (string index properties are outside the modelled value
space, and reading a property of null, which throws in JS, does not occur in
the executions the claims describe). -/
def jsField (v : JVal) (k : String) : Option JVal :=
  match v with
  | .obj o => oget o k
  | _ => none

/-- Object.entries of a value; non-objects contribute no entries. -/
def jsEntries : JVal → JObj
  | .obj o => o
  | _ => []

/-- Spreading a general value into an object position: objects contribute
their fields, primitives (and absent values) contribute nothing. -/
def jsSpreadInto (acc : JObj) : Option JVal → JObj
  | some (.obj o) => ospread acc o
  | _ => acc

mutual
/-- Modelled from the spec: the Parameter Composer combineParameters is
implemented in src/lib/client-api/src/parameters.ts, which is not among the
provided sources.  Spec section 4.1: layers are applied left-to-right with
later layers taking precedence; plain nested mapping values are deep-merged
key-by-key recursively; any non-mapping value in a later layer replaces the
corresponding earlier value wholesale; absent keys in a later layer never
erase a present value; inputs are not mutated. -/
def deepMergeVal : JVal → JVal → JVal
  | .obj a, .obj b => .obj (deepMergeFields a b)
  | _, y => y

/-- Deep merge of two field lists; fields of the second layer are merged
into the first one by one (see deepMergeVal). -/
def deepMergeFields : JObj → JObj → JObj
  | acc, [] => acc
  | acc, (k, v) :: rest =>
      let merged := match oget acc k with
        | some old => deepMergeVal old v
        | none => v
      deepMergeFields (oset acc k merged) rest
end

/-- Modelled from the spec: two-layer combineParameters (see deepMergeVal). -/
def combineParameters (a b : JObj) : JObj := deepMergeFields a b

/-- Modelled from the spec: three-layer combineParameters (see deepMergeVal). -/
def combineParameters3 (a b c : JObj) : JObj :=
  deepMergeFields (deepMergeFields a b) c

/-- lodash pick(obj, 'args', 'argTypes') as used in addStory: the object
restricted to the listed keys, in the listed order. -/
def pickArgsArgTypes (o : JObj) : JObj :=
  (match oget o "args" with
   | some v => [("args", v)]
   | none => []) ++
  (match oget o "argTypes" with
   | some v => [("argTypes", v)]
   | none => [])

/-- The shared defaultValue extraction: Object.entries(argTypes).reduce over
entries [arg, { defaultValue }], keeping arg -> defaultValue whenever the
declared defaultValue is truthy (the source guards with if (defaultValue)).
Used both for a story's defaultArgs in addStory and for defaultGlobalArgs in
finishConfiguring. -/
def defaultsFromArgTypes (argTypes : JVal) : JObj :=
  (jsEntries argTypes).foldl
    (fun acc f =>
      match jsField f.2 "defaultValue" with
      | some d => if d.truthy then oset acc f.1 d else acc
      | none => acc)
    []

/-- StoryMetadata: a parameters object plus an ordered decorator list.
Decorator functions are opaque to the store and modelled as numbered
tokens. -/
structure StoryMetadataM where
  parameters : JObj
  decorators : List Nat
deriving Repr, DecidableEq

/-- KindMetadata: StoryMetadata plus the declaration order of the kind. -/
structure KindMetadataM where
  order : Nat
  parameters : JObj
  decorators : List Nat
deriving Repr, DecidableEq

/-- The single-slot memo cell produced by memoize(1) around the zero-argument
thunk () => applyDecorators(finalStoryFn, decorators).  The composed render
function is opaque and represented by a numbered token. -/
structure MemoCell where
  cached : Option Nat
deriving Repr, DecidableEq

/-- One call through the memoized getDecorated: a cache hit returns the
cached composed function without invoking the composer; a miss invokes the
composer (compose) once and caches the result.  The third component counts
composer invocations made by this call. -/
def callMemo (compose : Unit → Nat) (c : MemoCell) : MemoCell × Nat × Nat :=
  match c.cached with
  | some v => (c, v, 0)
  | none =>
      let v := compose ()
      ({ cached := some v }, v, 1)

/-- n successive calls through the memoized getDecorated, returning the final
cell state and the total number of composer invocations. -/
def runMemo (compose : Unit → Nat) : Nat → MemoCell → MemoCell × Nat
  | 0, c => (c, 0)
  | n + 1, c =>
      let r := callMemo compose c
      let rest := runMemo compose n r.1
      (rest.1, r.2.2 + rest.2)

/-- A stored story entry (StoreItem).  The user's raw render function
(storyFn argument of addStory, kept via getOriginal) is the opaque token
original.  hooks is the serial number of the entry's freshly allocated
HooksContext resource handle; the serial also uniquely identifies the
closures (storyFn, getDecorated) created by the same addStory call.
decorators is the decorator sequence captured by the getDecorated closure,
i.e. the exact list handed to the external composer applyDecorators.
getDecorated is present (some) for every entry built by addStory; the store
type also admits partially constructed entries without it, which fromId and
raw must tolerate. -/
structure StoreItem where
  id : String
  kind : String
  name : String
  story : String
  hooks : Nat
  getDecorated : Option MemoCell
  original : Nat
  decorators : List Nat
  parameters : JObj
  args : JObj
deriving Repr, DecidableEq

/-- The published store item returned by fromId: the entry spread together
with the current global args. -/
structure PublishedStoreItem where
  item : StoreItem
  globalArgs : JObj
deriving Repr, DecidableEq

/-- The whole mutable state of a StoryStore instance.  The channel, the
selection, the revision counter and the error slot play no part in the
claims under study; parameter enhancers are the registered pipeline of
(accumulated parameters -> partial parameters) functions (the args and
globalArgs fields of the context the source passes them are the constant
empty object and are elided). -/
structure StoreState where
  configuring : Bool
  globalArgs : JObj
  globalMetadata : StoryMetadataM
  kinds : List (String × KindMetadataM)
  stories : List (String × StoreItem)
  parameterEnhancers : List (JObj → JObj)
  nextHandle : Nat

/-- The freshly constructed store: configuring starts true, everything else
empty (the constructor). -/
def initialState : StoreState where
  configuring := true
  globalArgs := []
  globalMetadata := { parameters := [], decorators := [] }
  kinds := []
  stories := []
  parameterEnhancers := []
  nextHandle := 0

/-- The errors thrown by store operations. -/
inductive StoreError where
  | cannotAddStory : StoreError
  | cannotRemove : StoreError
  | cannotRemoveKind : StoreError
  | noStoryForId : String → StoreError
  | enhancerAfterStory : StoreError
deriving Repr, DecidableEq

/-- Options taken by raw, extract and getStorybook. -/
structure StoryOptions where
  includeDocsOnly : Bool
deriving Repr, DecidableEq

/-- isStoryDocsOnly: parameters && parameters.docsOnly.  In the embedding a
stored entry's parameters is always an object (hence truthy), so the check
reduces to the truthiness of the docsOnly field. -/
def isStoryDocsOnly (parameters : JObj) : Bool :=
  truthyOpt (oget parameters "docsOnly")

/-- includeStory with its default options value of includeDocsOnly false
when the caller passes no options. -/
def includeStory (story : StoreItem) (options : Option StoryOptions) : Bool :=
  if (options.getD { includeDocsOnly := false }).includeDocsOnly then true
  else !(isStoryDocsOnly story.parameters)

/-- startConfiguring. -/
def startConfiguring (s : StoreState) : StoreState :=
  { s with configuring := true }

/-- ensureKind: creates the kind lazily with the next sequential order;
idempotent when the kind exists. -/
def ensureKind (s : StoreState) (kind : String) : StoreState :=
  match klookup s.kinds kind with
  | some _ => s
  | none =>
      { s with
        kinds := s.kinds ++
          [(kind, { order := s.kinds.length, parameters := [], decorators := [] })] }

/-- addGlobalMetadata: merges parameters into the global parameter set and
appends the decorators.  The source performs no configuring-phase check in
this method (it only logs a warning when args or argTypes appear in the
incoming parameters, which has no effect on state). -/
def addGlobalMetadata (s : StoreState) (parameters : JObj) (decorators : List Nat) :
    StoreState :=
  { s with
    globalMetadata :=
      { parameters := combineParameters s.globalMetadata.parameters parameters
        decorators := s.globalMetadata.decorators ++ decorators } }

/-- clearGlobalDecorators. -/
def clearGlobalDecorators (s : StoreState) : StoreState :=
  { s with globalMetadata := { s.globalMetadata with decorators := [] } }

/-- addKindMetadata: ensures the kind, merges its parameters, appends its
decorators.  As with addGlobalMetadata the source has no configuring-phase
check here (checkGlobalArgs only logs). -/
def addKindMetadata (s : StoreState) (kind : String) (parameters : JObj)
    (decorators : List Nat) : StoreState :=
  let s2 := ensureKind s kind
  let km := (klookup s2.kinds kind).getD
    { order := 0, parameters := [], decorators := [] }
  { s2 with
    kinds := kset s2.kinds kind
      { km with
        parameters := combineParameters km.parameters parameters
        decorators := km.decorators ++ decorators } }

/-- addParameterEnhancer: throws once a story exists. -/
def addParameterEnhancer (s : StoreState) (f : JObj → JObj) :
    Except StoreError StoreState :=
  if s.stories.length > 0 then .error .enhancerAfterStory
  else .ok { s with parameterEnhancers := s.parameterEnhancers ++ [f] }

/-- getAllParameters: combines the global, kind and story parameters of a
story.  The source indexes this stories and this kinds unconditionally and
would throw on a missing story or kind; the embedding returns none there
(such states are unreachable through the public operations, which maintain
the kind record of every stored story). -/
def getAllParameters (s : StoreState) (storyId : String) : Option JObj :=
  match klookup s.stories storyId with
  | none => none
  | some data =>
      match klookup s.kinds data.kind with
      | none => none
      | some km =>
          some (combineParameters3 s.globalMetadata.parameters km.parameters
            data.parameters)

/-- The descriptor accepted by addStory.  storyFn is the user's raw render
function, opaque to the store (token original). -/
structure AddStoryArgs where
  id : String
  kind : String
  name : String
  original : Nat
  parameters : JObj := []
  decorators : List Nat := []

/-- The args/argTypes resolution pipeline of addStory: the args and argTypes
sub-objects of the global, kind and story parameters are layered through the
Parameter Composer, then the enhancer pipeline folds over the accumulated
parameters with a shallow object spread.  kindParameters is the kind record
parameters after ensureKind. -/
def resolveArgParameters (globalParameters kindParameters storyParameters : JObj)
    (enhancers : List (JObj → JObj)) : JObj :=
  let beforeEnhancement :=
    combineParameters3 (pickArgsArgTypes globalParameters)
      (pickArgsArgTypes kindParameters) (pickArgsArgTypes storyParameters)
  enhancers.foldl (fun acc e => ospread acc (e acc)) beforeEnhancement

/-- The store entry addStory constructs: identity fields (story mirrors name
for legacy reads), a fresh handle serial, a fresh memo cell for the lazy
composition, the captured decorator list
storyDecorators ++ kindDecorators ++ globalDecorators, the story-scoped
parameters as given, and initial args spread as defaultArgs then the
resolved explicit args. -/
def builtStoryItem (s : StoreState) (a : AddStoryArgs) : StoreItem :=
  let s2 := ensureKind s a.kind
  let kindMeta := (klookup s2.kinds a.kind).getD
    { order := 0, parameters := [], decorators := [] }
  let resolved := resolveArgParameters s2.globalMetadata.parameters
    kindMeta.parameters a.parameters s2.parameterEnhancers
  let initialArgs := oget resolved "args"
  let argTypes := (oget resolved "argTypes").getD (.obj [])
  { id := a.id
    kind := a.kind
    name := a.name
    story := a.name
    hooks := s2.nextHandle
    getDecorated := some { cached := none }
    original := a.original
    decorators :=
      a.decorators ++ kindMeta.decorators ++ s2.globalMetadata.decorators
    parameters := a.parameters
    args := jsSpreadInto (defaultsFromArgTypes argTypes) initialArgs }

/-- addStory.  Throws when invoked outside the configuring phase without the
allowUnsafe bypass (before mutating anything).  A duplicate id only logs a
warning; the registration proceeds and overwrites the slot.  No resource
handle is ever released here, so the returned release trace is empty. -/
def addStory (s : StoreState) (a : AddStoryArgs) (allowUnsafe : Bool) :
    Except StoreError (StoreState × List Nat) :=
  if !s.configuring && !allowUnsafe then .error .cannotAddStory
  else
    let s2 := ensureKind s a.kind
    .ok ({ s2 with
            stories := kset s2.stories a.id (builtStoryItem s a)
            nextHandle := s2.nextHandle + 1 }, [])

/-- remove: guard, delete the entry, then release its handle if it existed. -/
def remove (s : StoreState) (id : String) (allowUnsafe : Bool) :
    Except StoreError (StoreState × List Nat) :=
  if !s.configuring && !allowUnsafe then .error .cannotRemove
  else
    match klookup s.stories id with
    | none => .ok (s, [])
    | some story =>
        .ok ({ s with stories := s.stories.filter (fun f => f.1 != id) },
          [story.hooks])

/-- fromId: total lookup.  The source wraps its body in try/catch so that it
never throws; every operation in the body (indexing and spreading) is itself
non-throwing, which the totality of this definition reflects, so the catch
arm that logs and returns null is unreachable.  An unknown id or an entry
without the composed-render capability yields the null result. -/
def fromId (s : StoreState) (id : String) : Option PublishedStoreItem :=
  match klookup s.stories id with
  | none => none
  | some data =>
      if data.getDecorated.isSome then
        some { item := data, globalArgs := s.globalArgs }
      else none

/-- raw: the fully-constructed entries (those with getDecorated) that pass
the docs-only filter, resolved through fromId.  For each surviving entry the
id is a key of the table, so fromId yields a published item and the null
results JS would skip cannot occur; filterMap reflects that. -/
def raw (s : StoreState) (options : Option StoryOptions) :
    List PublishedStoreItem :=
  (((s.stories.map Prod.snd).filter (fun i => i.getDecorated.isSome)).filter
      (fun i => includeStory i options)).filterMap (fun i => fromId s i.id)

/-- cleanHooksForKind: releases the handles of getStoriesForKind(kind),
which reads through raw() with default options. -/
def cleanHooksForKind (s : StoreState) (kind : String) : List Nat :=
  ((raw s none).filter (fun p => p.item.kind == kind)).map (fun p => p.item.hooks)

/-- removeStoryKind: guard; no-op for an unknown kind; otherwise resets the
kind record's parameters and decorators (keeping its order), releases the
handles reached through cleanHooksForKind, and drops every story of the
kind from the table. -/
def removeStoryKind (s : StoreState) (kind : String) (allowUnsafe : Bool) :
    Except StoreError (StoreState × List Nat) :=
  if !s.configuring && !allowUnsafe then .error .cannotRemoveKind
  else
    match klookup s.kinds kind with
    | none => .ok (s, [])
    | some km =>
        let released := cleanHooksForKind s kind
        .ok ({ s with
                kinds := kset s.kinds kind
                  { km with parameters := [], decorators := [] }
                stories := s.stories.filter (fun f => f.2.kind != kind) },
          released)

/-- updateGlobalArgs: shallow merge of the patch into the global args. -/
def updateGlobalArgs (s : StoreState) (newGlobalArgs : JObj) : StoreState :=
  { s with globalArgs := ospread s.globalArgs newGlobalArgs }

/-- updateStoryArgs: throws on an unknown id, otherwise shallow-merges the
patch into that story's args. -/
def updateStoryArgs (s : StoreState) (id : String) (newArgs : JObj) :
    Except StoreError StoreState :=
  match klookup s.stories id with
  | none => .error (.noStoryForId id)
  | some story =>
      .ok { s with
             stories := kset s.stories id
               { story with args := ospread story.args newArgs } }

/-- The truthy test the reconciliation step applies to acc[key]. -/
def truthyAt (o : JObj) (k : String) : Bool := truthyOpt (oget o k)

/-- The global-args reconciliation fold of finishConfiguring: the previous
global args are folded over the base object, and a key of base whose current
value is truthy (the source tests if (acc[key])) is overwritten with its
previous value. -/
def reconcileGlobalArgs (previous base : JObj) : JObj :=
  previous.foldl (fun acc f => if truthyAt acc f.1 then oset acc f.1 f.2 else acc)
    base

/-- The base of the global-args reconciliation computed by finishConfiguring
from the first registered story's stored parameters: defaultGlobalArgs
extracted from a truthy globalArgTypes spread together with the parameters'
own globalArgs. -/
def globalArgsBase (params : JObj) : JObj :=
  jsSpreadInto
    (match oget params "globalArgTypes" with
     | some gat => if gat.truthy then defaultsFromArgTypes gat else []
     | none => [])
    (oget params "globalArgs")

/-- finishConfiguring: leaves the configuring phase (the push to the manager
and the render-request emission go to the external channel and carry no
store state).  With at least one registered story, the first story's stored
parameters seed defaultGlobalArgs from its globalArgTypes declared truthy
defaults, and the previous global args are reconciled over the base
spread of defaultGlobalArgs then the parameters' globalArgs.  When fromId
of the first id yields the null result the source would throw while
destructuring; entries created by addStory always carry getDecorated, so
the embedding returns the dereconciled state unchanged there. -/
def finishConfiguring (s : StoreState) : StoreState :=
  let s := { s with configuring := false }
  match s.stories with
  | [] => s
  | (id0, _) :: _ =>
      match fromId s id0 with
      | none => s
      | some published =>
          { s with
            globalArgs := reconcileGlobalArgs s.globalArgs
              (globalArgsBase published.item.parameters) }

/-- The transport-safe projection of a store entry built by toExtracted:
function-valued fields (getDecorated, getOriginal, storyFn) and the hooks
field are stripped; the remaining fields are the identity fields and the
parameters and args objects, none of which is array-valued, so the
array-sorting arm of the source reduce never fires on a store entry. -/
structure ExtractedItem where
  id : String
  kind : String
  name : String
  story : String
  parameters : JObj
  args : JObj
deriving Repr, DecidableEq

/-- toExtracted on a store entry. -/
def toExtracted (i : StoreItem) : ExtractedItem :=
  { id := i.id, kind := i.kind, name := i.name, story := i.story
    parameters := i.parameters, args := i.args }

/-- The sort key of the default extract ordering: the declaration order of
the entry's kind.  The source reads this kinds[kind].order, presupposing the
kind record (addStory maintains it for every stored story); a missing kind
defaults to order 0 here. -/
def kindOrderD (s : StoreState) (kind : String) : Int :=
  match klookup s.kinds kind with
  | some km => (km.order : Int)
  | none => 0

/-- The key of the first story whose parameters carry a truthy options
field (the find over Object.keys in extract; a stored entry and its
parameters object are always truthy). -/
def optionsIndex (s : StoreState) : Option String :=
  (s.stories.find? (fun f => truthyOpt (oget f.2.parameters "options"))).map
    Prod.fst

/-- Whether extract takes its custom-sort branch: a first options-bearing
key was found, that key is a truthy string (the source tests the found key
itself, so the empty-string key is treated as no find), and its
options.storySort is truthy. -/
def customSortActive (s : StoreState) : Bool :=
  match optionsIndex s with
  | none => false
  | some k =>
      k != "" &&
      (match klookup s.stories k with
       | some it =>
           truthyOpt (jsField ((oget it.parameters "options").getD .null) "storySort")
       | none => false)

/-- The entry ordering produced by extract before filtering.  The npm
package stable is a stable merge sort driven by a numeric comparator in
which a non-positive result keeps the left element first; for a comparator
realising a total preorder the stable sorted permutation is unique, so the
embedding uses the stable List.insertionSort of Mathlib over the relation
comparator le 0.  In the custom branch the comparator compiled from the
storySort parameter (a direct comparator function, or the configuration
compiled by the external storySort module, which is not among the provided
sources) is the opaque argument cmp. -/
def sortedEntries (cmp : (String × StoreItem) → (String × StoreItem) → Int)
    (s : StoreState) : List (String × StoreItem) :=
  if s.stories.length > 0 then
    if customSortActive s then
      List.insertionSort (fun a b => cmp a b ≤ 0) s.stories
    else
      List.insertionSort
        (fun a b => kindOrderD s a.2.kind ≤ kindOrderD s b.2.kind) s.stories
  else s.stories

/-- extract: the sorted entries that pass the docs-only filter, projected
through toExtracted, in order (the source builds an insertion-ordered
mapping keyed by story id). -/
def extract (cmp : (String × StoreItem) → (String × StoreItem) → Int)
    (s : StoreState) (options : Option StoryOptions) :
    List (String × ExtractedItem) :=
  ((sortedEntries cmp s).filter (fun f => includeStory f.2 options)).map
    (fun f => (f.1, toExtracted f.2))

/-- getStoriesForManager: extract with includeDocsOnly set. -/
def getStoriesForManager
    (cmp : (String × StoreItem) → (String × StoreItem) → Int)
    (s : StoreState) : List (String × ExtractedItem) :=
  extract cmp s (some { includeDocsOnly := true })

/-- One kind group of the getStorybook result; stories holds (name, render)
pairs where render is the per-entry storyFn closure, identified by the
entry's serial. -/
structure GetStorybookKindM where
  kind : String
  fileName : Option JVal
  stories : List (String × Nat)
deriving Repr, DecidableEq

/-- One step of the getStorybook grouping reduce: a story passing the
(repeated) docs-only filter ensures a group record for its kind exists
(first-appearance order, fileName from its parameters) and pushes its
(name, render) pair onto that group; render is the per-entry storyFn
closure, identified by the entry's serial. -/
def storybookStep (kinds : List GetStorybookKindM) (p : PublishedStoreItem) :
    List GetStorybookKindM :=
  if !includeStory p.item none then kinds
  else
    let kinds2 :=
      if (kinds.find? (fun kd => kd.kind == p.item.kind)).isSome then kinds
      else kinds ++
        [{ kind := p.item.kind
           fileName := oget p.item.parameters "fileName"
           stories := [] }]
    kinds2.map (fun kd =>
      if kd.kind == p.item.kind then
        { kd with stories := kd.stories ++ [(p.item.name, p.item.hooks)] }
      else kd)

/-- getStorybook: groups the raw (default-filtered) stories by kind in
first-appearance order, filtering docs-only entries once more as the source
does, then sorts the groups by kind declaration order. -/
def getStorybook (s : StoreState) : List GetStorybookKindM :=
  let grouped := (raw s none).foldl storybookStep []
  List.insertionSort (fun a b => kindOrderD s a.kind ≤ kindOrderD s b.kind) grouped

/-- The member names of the StoryStore class in story_store.ts: every method
declared in the class body together with the instance properties assigned in
the constructor (including the arrow-function class properties), in source
order.  These are the names resolvable on this inside a method. -/
def storyStoreMembers : List String :=
  ["_error", "_channel", "_configuring", "_globalArgs", "_globalMetadata",
   "_kinds", "_stories", "_parameterEnhancers", "_revision", "_selection",
   "constructor", "setupListeners", "startConfiguring", "finishConfiguring",
   "addGlobalMetadata", "clearGlobalDecorators", "ensureKind",
   "addKindMetadata", "addParameterEnhancer", "getAllParameters", "addStory",
   "remove", "removeStoryKind", "updateGlobalArgs", "updateStoryArgs",
   "fromId", "raw", "extract", "clearError", "setError", "getError",
   "setSelection", "getSelection", "getStoriesForManager", "pushToManager",
   "getStoryKinds", "getStoriesForKind", "getRawStory", "getRevision",
   "incrementRevision", "cleanHooks", "cleanHooksForKind", "getStorybook"]

/-- The member name the stored storyFn closure resolves on this to obtain
the merged parameters for the render context (story_store.ts line 310). -/
def storyFnParametersCall : String := "getFullParameters"

/-- The story table is keyed consistently: keys are unique and every entry
is stored under its own id.  Every state reachable through the public
operations satisfies this. -/
def wfStories (s : StoreState) : Prop :=
  (s.stories.map Prod.fst).Nodup ∧ ∀ p ∈ s.stories, (p.2).id = p.1

/-- The resource-handle serials of the stored entries are pairwise distinct
(each entry got a fresh HooksContext).  Every state reachable through the
public operations satisfies this. -/
def handlesNodup (s : StoreState) : Prop :=
  ((s.stories.map Prod.snd).map StoreItem.hooks).Nodup

/-- A total form of addStory with the allowUnsafe bypass, under which the
guard never fires and no handle is released. -/
def addStoryU (s : StoreState) (a : AddStoryArgs) : StoreState :=
  match addStory s a true with
  | .ok p => p.1
  | .error _ => s

/-- Registering a list of stories with the bypass, left to right. -/
def addStoriesU (s : StoreState) (l : List AddStoryArgs) : StoreState :=
  l.foldl addStoryU s

/-- The storySort parameter of a stored entry: parameters.options.storySort
read with undefined propagating as none. -/
def storySortOf (i : StoreItem) : Option JVal :=
  jsField ((oget i.parameters "options").getD .null) "storySort"

/-- Unwraps a successful store operation to its state, for building concrete
scenario states. -/
def okS (e : Except StoreError (StoreState × List Nat)) : StoreState :=
  match e with
  | .ok p => p.1
  | .error _ => initialState

/-- Every stored handle serial is below the allocation counter; states
reachable through the public operations satisfy this (each entry takes the
counter value current at its registration, after which the counter
increases). -/
def handlesBound (s : StoreState) : Prop :=
  ∀ p ∈ s.stories, p.2.hooks < s.nextHandle

/-- The store of the C8 witness: one ordinarily registered story. -/
def c8S : StoreState :=
  okS (addStory initialState
    { id := "a--1", kind := "A", name := "one", original := 5 } false)

/-- The entry c8S stores under a--1. -/
def c8item : StoreItem :=
  { id := "a--1", kind := "A", name := "one", story := "one", hooks := 0,
    getDecorated := some { cached := none }, original := 5, decorators := [],
    parameters := [], args := [] }

/-- The prepared store of the C9 witness: kind A carries decorator 30, the
global scope carries decorator 40. -/
def c9S : StoreState :=
  addGlobalMetadata (addKindMetadata initialState "A" [] [30]) [] [40]

/-- The C9 witness story: story-scoped decorator 10 under kind A. -/
def c9A : AddStoryArgs :=
  { id := "a--1", kind := "A", name := "one", original := 5, decorators := [10] }

/-- The store of the C10 witness: a story registered at id a--1 (handle 0)
about to be overwritten. -/
def c10S : StoreState :=
  okS (addStory initialState
    { id := "a--1", kind := "A", name := "one", original := 5 } false)

/-- A store that has left the configuring phase. -/
def c1S : StoreState := finishConfiguring initialState

/-- The store of the C2 counterexample: the single story's parameters carry
globalArgs with the falsy value false for x, and the user has set x to true
before configuring finishes. -/
def c2S : StoreState :=
  updateGlobalArgs
    (okS (addStory initialState
      { id := "a--1", kind := "A", name := "one", original := 7,
        parameters := [("globalArgs", JVal.obj [("x", JVal.bool false)])] }
      false))
    [("x", JVal.bool true)]

/-- The store of the C2 witness: previous global args x=9 and z=3, a story
declaring initial global arg x=1 and a global arg type y with default 2. -/
def c2W : StoreState :=
  updateGlobalArgs
    (okS (addStory initialState
      { id := "a--1", kind := "A", name := "one", original := 7,
        parameters :=
          [("globalArgs", JVal.obj [("x", JVal.num 1)]),
           ("globalArgTypes",
             JVal.obj [("y", JVal.obj [("defaultValue", JVal.num 2)])])] }
      false))
    [("x", JVal.num 9), ("z", JVal.num 3)]

/-- The entry c2W stores under a--1. -/
def c2Witem : StoreItem :=
  { id := "a--1", kind := "A", name := "one", story := "one", hooks := 0,
    getDecorated := some { cached := none }, original := 7, decorators := [],
    parameters :=
      [("globalArgs", JVal.obj [("x", JVal.num 1)]),
       ("globalArgTypes",
         JVal.obj [("y", JVal.obj [("defaultValue", JVal.num 2)])])],
    args := [] }

/-- The store of the C3 counterexample: the single story's argTypes declare
the falsy defaultValue 0 for x. -/
def c3S : StoreState :=
  okS (addStory initialState
    { id := "a--1", kind := "A", name := "one", original := 7,
      parameters :=
        [("argTypes", JVal.obj [("x", JVal.obj [("defaultValue", JVal.num 0)])])] }
    false)

/-- Unwraps a successful store operation to its release trace. -/
def okTrace (e : Except StoreError (StoreState × List Nat)) : List Nat :=
  match e with
  | .ok p => p.2
  | .error _ => []

/-- The store of the C4 counterexample: kind K holds the docs-only story
k--a (handle 0) and the ordinary story k--b (handle 1). -/
def c4S : StoreState :=
  okS (addStory (okS (addStory initialState
    { id := "k--a", kind := "K", name := "a", original := 1,
      parameters := [("docsOnly", JVal.bool true)] } false))
    { id := "k--b", kind := "K", name := "b", original := 2 } false)

/-- The docs-only entry of c4S. -/
def c4itemA : StoreItem :=
  { id := "k--a", kind := "K", name := "a", story := "a", hooks := 0,
    getDecorated := some { cached := none }, original := 1, decorators := [],
    parameters := [("docsOnly", JVal.bool true)], args := [] }

/-- The ordinary entry of c4S. -/
def c4itemB : StoreItem :=
  { id := "k--b", kind := "K", name := "b", story := "b", hooks := 1,
    getDecorated := some { cached := none }, original := 2, decorators := [],
    parameters := [], args := [] }

/-- The store of the C6 counterexample: kind-level metadata switches
docsOnly on for every story of kind K; the story k--s itself carries empty
story-scoped parameters. -/
def c6S : StoreState :=
  okS (addStory
    (addKindMetadata initialState "K" [("docsOnly", JVal.bool true)] [])
    { id := "k--s", kind := "K", name := "s", original := 1 } false)

/-- A trivial custom comparator for concrete scenarios. -/
def cmp0 : (String × StoreItem) → (String × StoreItem) → Int := fun _ _ => 0

/-- The store of the C7 witness: stories b--1, a--1, b--2 registered in that
order (kind B first, then A, then B again). -/
def c7S : StoreState :=
  okS (addStory (okS (addStory (okS (addStory initialState
    { id := "b--1", kind := "B", name := "1", original := 1 } false))
    { id := "a--1", kind := "A", name := "1", original := 2 } false))
    { id := "b--2", kind := "B", name := "2", original := 3 } false)

/-- The first kind-B entry of c7S. -/
def c7itemB1 : StoreItem :=
  { id := "b--1", kind := "B", name := "1", story := "1", hooks := 0,
    getDecorated := some { cached := none }, original := 1, decorators := [],
    parameters := [], args := [] }

/-- The second kind-B entry of c7S. -/
def c7itemB2 : StoreItem :=
  { id := "b--2", kind := "B", name := "2", story := "2", hooks := 2,
    getDecorated := some { cached := none }, original := 3, decorators := [],
    parameters := [], args := [] }


/-! ### Record lookup and assignment lemmas -/

theorem klookup_cons {β : Type} (k2 : String) (v2 : β) (m : List (String × β))
    (k : String) :
    klookup ((k2, v2) :: m) k = if k2 = k then some v2 else klookup m k := by
  by_cases h : k2 = k
  · simp [klookup, List.find?, h]
  · simp only [klookup, List.find?]
    have : ((k2, v2).1 == k) = false := by simpa using h
    simp [this, h]

theorem klookup_kset_self {β : Type} (m : List (String × β)) (k : String) (v : β) :
    klookup (kset m k v) k = some v := by
  induction m with
  | nil => simp [kset, klookup_cons]
  | cons e t ih =>
      obtain ⟨k2, v2⟩ := e
      by_cases h : k2 = k
      · simp [kset, h, klookup_cons]
      · simp [kset, h, klookup_cons, ih]

theorem klookup_kset_ne {β : Type} (m : List (String × β)) (k k2 : String) (v : β)
    (h : k2 ≠ k) : klookup (kset m k v) k2 = klookup m k2 := by
  have hne : k ≠ k2 := Ne.symm h
  induction m with
  | nil =>
      show klookup [(k, v)] k2 = klookup [] k2
      rw [klookup_cons, if_neg hne]
  | cons e t ih =>
      obtain ⟨k3, v3⟩ := e
      by_cases h3 : k3 = k
      · subst h3
        show klookup (if (k3 == k3) = true then (k3, v) :: t else
          (k3, v3) :: kset t k3 v) k2 = _
        simp only [beq_self_eq_true, if_true]
        rw [klookup_cons, if_neg hne, klookup_cons, if_neg hne]
      · show klookup (if (k3 == k) = true then (k, v) :: t else
          (k3, v3) :: kset t k v) k2 = _
        have : (k3 == k) = false := by simpa using h3
        rw [this]
        simp only [Bool.false_eq_true, if_false]
        rw [klookup_cons, klookup_cons, ih]

theorem klookup_eq_none_iff {β : Type} (m : List (String × β)) (k : String) :
    klookup m k = none ↔ k ∉ m.map Prod.fst := by
  induction m with
  | nil => simp [klookup]
  | cons e t ih =>
      obtain ⟨k2, v2⟩ := e
      by_cases h : k2 = k
      · simp [klookup_cons, h]
      · simp [klookup_cons, h, ih, Ne.symm h]

theorem klookup_mem {β : Type} {m : List (String × β)} {k : String} {v : β}
    (h : klookup m k = some v) : (k, v) ∈ m := by
  induction m with
  | nil => simp [klookup] at h
  | cons e t ih =>
      obtain ⟨k2, v2⟩ := e
      by_cases h2 : k2 = k
      · rw [klookup_cons, if_pos h2] at h
        cases h
        simp [h2]
      · rw [klookup_cons, if_neg h2] at h
        simp [ih h]

theorem klookup_of_mem_nodup {β : Type} {m : List (String × β)} {k : String} {v : β}
    (hn : (m.map Prod.fst).Nodup) (hm : (k, v) ∈ m) : klookup m k = some v := by
  induction m with
  | nil => simp at hm
  | cons e t ih =>
      obtain ⟨k2, v2⟩ := e
      simp only [List.map_cons, List.nodup_cons] at hn
      rcases List.mem_cons.mp hm with h | h
      · cases h
        simp [klookup_cons]
      · have hk : k2 ≠ k := by
          intro he
          exact hn.1 (he ▸ (List.mem_map.mpr ⟨(k, v), h, rfl⟩))
        rw [klookup_cons, if_neg hk]
        exact ih hn.2 h

theorem klookup_append_left {β : Type} {m m2 : List (String × β)} {k : String}
    {v : β} (h : klookup m k = some v) : klookup (m ++ m2) k = some v := by
  induction m with
  | nil => simp [klookup] at h
  | cons e t ih =>
      obtain ⟨k2, v2⟩ := e
      by_cases h2 : k2 = k
      · rw [klookup_cons, if_pos h2] at h
        simpa [klookup_cons, h2] using h
      · rw [klookup_cons, if_neg h2] at h
        simpa [klookup_cons, h2] using ih h

/-! ### Generic characterization of folds that rewrite only the step key -/

/-- A fold step that touches no key but its entry's own leaves other keys
unread and unwritten. -/
theorem foldl_keyStep_get_of_not_mem {γ : Type} (g : JObj → String × γ → JObj)
    (hgne : ∀ acc e q, q ≠ e.1 → oget (g acc e) q = oget acc q)
    (l : List (String × γ)) (acc : JObj) (q : String)
    (h : q ∉ l.map Prod.fst) :
    oget (l.foldl g acc) q = oget acc q := by
  induction l generalizing acc with
  | nil => rfl
  | cons e t ih =>
      simp only [List.map_cons, List.mem_cons, not_or] at h
      rw [List.foldl_cons, ih (g acc e) h.2, hgne acc e q h.1]

/-- In a fold whose step rewrites only its entry's key and whose effect at
that key depends only on the accumulated value at that key, the value at a
key with a unique entry is the effect of that entry's step on the initial
accumulator. -/
theorem foldl_keyStep_get_of_mem {γ : Type} (g : JObj → String × γ → JObj)
    (hgne : ∀ acc e q, q ≠ e.1 → oget (g acc e) q = oget acc q)
    (hgcongr : ∀ acc acc2 e, oget acc e.1 = oget acc2 e.1 →
      oget (g acc e) e.1 = oget (g acc2 e) e.1)
    (l : List (String × γ)) (acc : JObj) (q : String) (v : γ)
    (hn : (l.map Prod.fst).Nodup) (hm : (q, v) ∈ l) :
    oget (l.foldl g acc) q = oget (g acc (q, v)) q := by
  induction l generalizing acc with
  | nil => simp at hm
  | cons e t ih =>
      simp only [List.map_cons, List.nodup_cons] at hn
      rcases List.mem_cons.mp hm with h | h
      · subst h
        rw [List.foldl_cons,
          foldl_keyStep_get_of_not_mem g hgne t (g acc (q, v)) q hn.1]
      · have hq : q ≠ e.1 := by
          intro he
          exact hn.1 (he ▸ (List.mem_map.mpr ⟨(q, v), h, rfl⟩))
        rw [List.foldl_cons, ih (g acc e) hn.2 h,
          hgcongr (g acc e) acc (q, v) (hgne acc e q hq)]

/-- Extensional description of the JS object spread: a key of the spread
source (with unique keys) wins, all other keys keep the base value. -/
theorem oget_ospread (a b : JObj) (hb : (b.map Prod.fst).Nodup) (k : String) :
    oget (ospread a b) k = (oget b k).or (oget a k) := by
  have hgne : ∀ acc (e : String × JVal) q, q ≠ e.1 →
      oget (oset acc e.1 e.2) q = oget acc q :=
    fun acc e q hq => klookup_kset_ne acc e.1 q e.2 hq
  by_cases hmem : k ∈ b.map Prod.fst
  · have hsome : klookup b k ≠ none := by
      rw [Ne, klookup_eq_none_iff]
      simpa using hmem
    obtain ⟨v, hv2⟩ := Option.ne_none_iff_exists'.mp hsome
    have hv : (k, v) ∈ b := klookup_mem hv2
    have h1 : oget (ospread a b) k = oget (oset a k v) k :=
      foldl_keyStep_get_of_mem (fun acc e => oset acc e.1 e.2) hgne
        (fun acc acc2 e _ => by
          simp [oget, oset, klookup_kset_self acc e.1 e.2,
            klookup_kset_self acc2 e.1 e.2])
        b a k v hb hv
    rw [h1]
    show klookup (kset a k v) k = (klookup b k).or (klookup a k)
    rw [klookup_kset_self, hv2, Option.or]
  · have h1 : oget (ospread a b) k = oget a k :=
      foldl_keyStep_get_of_not_mem (fun acc e => oset acc e.1 e.2) hgne b a k hmem
    have h2 : oget b k = none := (klookup_eq_none_iff b k).mpr hmem
    simp [h1, h2, Option.or]

/-! ### Characterization of the global-args reconciliation fold -/

theorem reconcile_get_of_not_mem (previous base : JObj) (q : String)
    (h : q ∉ previous.map Prod.fst) :
    oget (reconcileGlobalArgs previous base) q = oget base q :=
  foldl_keyStep_get_of_not_mem
    (fun acc f => if truthyAt acc f.1 then oset acc f.1 f.2 else acc)
    (fun acc e q2 hq => by
      by_cases ht : truthyAt acc e.1
      · simp only [ht, if_true]
        exact klookup_kset_ne acc e.1 q2 e.2 hq
      · simp [ht])
    previous base q h

theorem reconcile_get_of_mem (previous base : JObj) (q : String) (v : JVal)
    (hn : (previous.map Prod.fst).Nodup) (hm : (q, v) ∈ previous) :
    oget (reconcileGlobalArgs previous base) q =
      if truthyAt base q then some v else oget base q := by
  have h := foldl_keyStep_get_of_mem
    (fun acc f => if truthyAt acc f.1 then oset acc f.1 f.2 else acc)
    (fun acc e q2 hq => by
      by_cases ht : truthyAt acc e.1
      · simp only [ht, if_true]
        exact klookup_kset_ne acc e.1 q2 e.2 hq
      · simp [ht])
    (fun acc acc2 e he => by
      have ht : truthyAt acc e.1 = truthyAt acc2 e.1 := by
        simp [truthyAt, oget] at he ⊢
        rw [he]
      by_cases h2 : truthyAt acc2 e.1
      · simp only [ht, h2, if_true]
        rw [show oget (oset acc e.1 e.2) e.1 = some e.2 from
            klookup_kset_self acc e.1 e.2,
          show oget (oset acc2 e.1 e.2) e.1 = some e.2 from
            klookup_kset_self acc2 e.1 e.2]
      · simp only [ht, h2, if_false]
        simpa [oget] using he)
    previous base q v hn hm
  show oget (List.foldl
    (fun acc f => if truthyAt acc f.1 then oset acc f.1 f.2 else acc)
    base previous) q = _
  rw [h]
  by_cases ht : truthyAt base q
  · simp only [ht, if_true]
    exact klookup_kset_self base q v
  · simp [ht]

/-! ### Characterization of the declared-defaults extraction -/

theorem defaultsFromArgTypes_get (v : JVal) (q : String)
    (hn : ((jsEntries v).map Prod.fst).Nodup) :
    oget (defaultsFromArgTypes v) q =
      match klookup (jsEntries v) q with
      | some t =>
          match jsField t "defaultValue" with
          | some d => if d.truthy then some d else none
          | none => none
      | none => none := by
  have hgne : ∀ (acc : JObj) (e : String × JVal) (q2 : String), q2 ≠ e.1 →
      oget ((fun acc f =>
        match jsField f.2 "defaultValue" with
        | some d => if d.truthy then oset acc f.1 d else acc
        | none => acc) acc e) q2 = oget acc q2 := by
    intro acc e q2 hq
    rcases hd : jsField e.2 "defaultValue" with _ | d
    · simp [hd]
    · by_cases ht : d.truthy
      · simp only [hd, ht, if_true]
        exact klookup_kset_ne acc e.1 q2 d hq
      · simp [hd, ht]
  rcases hl : klookup (jsEntries v) q with _ | t
  · have hnm : q ∉ (jsEntries v).map Prod.fst := (klookup_eq_none_iff _ q).mp hl
    rw [show defaultsFromArgTypes v = (jsEntries v).foldl _ [] from rfl]
    rw [foldl_keyStep_get_of_not_mem _ hgne (jsEntries v) [] q hnm]
    rfl
  · have hm : (q, t) ∈ jsEntries v := klookup_mem hl
    have h := foldl_keyStep_get_of_mem _ hgne
      (fun acc acc2 e he => by
        rcases hd : jsField e.2 "defaultValue" with _ | d
        · simpa [hd, oget] using he
        · by_cases ht : d.truthy
          · simp only [hd, ht, if_true]
            rw [show oget (oset acc e.1 d) e.1 = some d from
                klookup_kset_self acc e.1 d,
              show oget (oset acc2 e.1 d) e.1 = some d from
                klookup_kset_self acc2 e.1 d]
          · simpa [hd, ht, oget] using he)
      (jsEntries v) [] q t hn hm
    rw [show defaultsFromArgTypes v = (jsEntries v).foldl _ [] from rfl, h]
    rcases hd : jsField t "defaultValue" with _ | d
    · simp [hd, oget, klookup]
    · by_cases ht : d.truthy
      · simp only [hd, ht, if_true]
        exact klookup_kset_self [] q d
      · simp [hd, ht, oget, klookup]

/-! ### Well-formedness of store states and the shape of raw -/

theorem filterMap_congr_map {α β : Type} (l : List α) (f : α → Option β)
    (g : α → β) (h : ∀ x ∈ l, f x = some (g x)) : l.filterMap f = l.map g := by
  induction l with
  | nil => rfl
  | cons x t ih =>
      rw [List.filterMap_cons, h x (List.mem_cons_self x t), List.map_cons,
        ih (fun y hy => h y (List.mem_cons_of_mem x hy))]

/-- Under a well-formed story table, raw is the filtered story list
published with the current global args. -/
theorem raw_eq (s : StoreState) (options : Option StoryOptions)
    (hwf : wfStories s) :
    raw s options =
      (((s.stories.map Prod.snd).filter (fun i => i.getDecorated.isSome)).filter
        (fun i => includeStory i options)).map
        (fun i => { item := i, globalArgs := s.globalArgs }) := by
  apply filterMap_congr_map
  intro i hi
  obtain ⟨hi1, _⟩ := List.mem_filter.mp hi
  obtain ⟨hi2, hdec⟩ := List.mem_filter.mp hi1
  obtain ⟨⟨k, i2⟩, hk, he⟩ := List.mem_map.mp hi2
  cases he
  have hid : i2.id = k := hwf.2 (k, i2) hk
  have hlook : klookup s.stories i2.id = some i2 := by
    rw [hid]
    exact klookup_of_mem_nodup hwf.1 hk
  simp [fromId, hlook, hdec]

/-! ### Memoization lemmas -/

theorem runMemo_cached (f : Unit → Nat) (n : Nat) (v : Nat) :
    runMemo f n { cached := some v } = ({ cached := some v }, 0) := by
  induction n with
  | zero => rfl
  | succ n ih => simp [runMemo, callMemo, ih]

theorem runMemo_fresh_le_one (f : Unit → Nat) (n : Nat) :
    (runMemo f n { cached := none }).2 ≤ 1 := by
  cases n with
  | zero => simp [runMemo]
  | succ n => simp [runMemo, callMemo, runMemo_cached]

/-! ### Preservation of kind records -/

theorem klookup_ensureKind (s : StoreState) (k k2 : String) (km2 : KindMetadataM)
    (h : klookup s.kinds k2 = some km2) :
    klookup (ensureKind s k).kinds k2 = some km2 := by
  unfold ensureKind
  rcases hk : klookup s.kinds k with _ | km
  · exact klookup_append_left h
  · exact h

theorem addStory_true_ok (s : StoreState) (a : AddStoryArgs) :
    addStory s a true = .ok (addStoryU s a, []) := by
  simp [addStory, addStoryU]

theorem addStory_kinds (s : StoreState) (a : AddStoryArgs) (u : Bool)
    (s2 : StoreState) (tr : List Nat) (h : addStory s a u = .ok (s2, tr)) :
    s2.kinds = (ensureKind s a.kind).kinds := by
  by_cases hc : (!s.configuring && !u) = true
  · simp [addStory, hc] at h
  · simp only [addStory, hc, Bool.false_eq_true, if_false, Except.ok.injEq,
      Prod.mk.injEq] at h
    rw [← h.1]

theorem kinds_order_addStoryU (s : StoreState) (a : AddStoryArgs) (k2 : String)
    (km2 : KindMetadataM) (h2 : klookup s.kinds k2 = some km2) :
    klookup (addStoryU s a).kinds k2 = some km2 := by
  have h := addStory_kinds s a true (addStoryU s a) [] (addStory_true_ok s a)
  rw [h]
  exact klookup_ensureKind s a.kind k2 km2 h2

theorem kinds_order_addStoriesU (s : StoreState) (l : List AddStoryArgs)
    (k2 : String) (km2 : KindMetadataM) (h2 : klookup s.kinds k2 = some km2) :
    klookup (addStoriesU s l).kinds k2 = some km2 := by
  induction l generalizing s with
  | nil => exact h2
  | cons a t ih => exact ih (addStoryU s a) (kinds_order_addStoryU s a k2 km2 h2)

/-! ### The extract ordering -/

theorem customSortActive_eq_false (s : StoreState)
    (h : ∀ p ∈ s.stories, truthyOpt (storySortOf p.2) = false) :
    customSortActive s = false := by
  unfold customSortActive optionsIndex
  rcases hf : s.stories.find? (fun f => truthyOpt (oget f.2.parameters "options"))
    with _ | f
  · rw [hf]
    rfl
  · rw [hf, show Option.map Prod.fst (some f) = some f.1 from rfl]
    dsimp only
    rcases hl : klookup s.stories f.1 with _ | it
    · simp
    · have := h (f.1, it) (klookup_mem hl)
      simp only [storySortOf] at this
      simp [this]

theorem sortedEntries_perm
    (cmp : (String × StoreItem) → (String × StoreItem) → Int) (s : StoreState) :
    (sortedEntries cmp s).Perm s.stories := by
  unfold sortedEntries
  by_cases h1 : s.stories.length > 0
  · simp only [h1, if_true]
    by_cases h2 : customSortActive s
    · simp only [h2, if_true]
      exact List.perm_insertionSort _ _
    · simp only [h2, Bool.false_eq_true, if_false]
      exact List.perm_insertionSort _ _
  · simp [h1]

theorem klookup_append_right {β : Type} (m m2 : List (String × β)) (k : String)
    (h : klookup m k = none) : klookup (m ++ m2) k = klookup m2 k := by
  induction m with
  | nil => rfl
  | cons e t ih =>
      obtain ⟨k2, v2⟩ := e
      rw [klookup_cons] at h
      by_cases h2 : k2 = k
      · simp [h2] at h
      · rw [if_neg h2] at h
        rw [List.cons_append, klookup_cons, if_neg h2]
        exact ih h

theorem klookup_ensureKind_self (s : StoreState) (k : String) :
    klookup (ensureKind s k).kinds k =
      some ((klookup s.kinds k).getD
        { order := s.kinds.length, parameters := [], decorators := [] }) := by
  unfold ensureKind
  rcases hk : klookup s.kinds k with _ | km
  · rw [klookup_append_right s.kinds _ k hk, klookup_cons, if_pos rfl]
    rfl
  · rw [hk]
    rfl

theorem ensureKind_stories (s : StoreState) (k : String) :
    (ensureKind s k).stories = s.stories := by
  unfold ensureKind
  rcases klookup s.kinds k <;> rfl

theorem ensureKind_nextHandle (s : StoreState) (k : String) :
    (ensureKind s k).nextHandle = s.nextHandle := by
  unfold ensureKind
  rcases klookup s.kinds k <;> rfl

theorem ensureKind_globalMetadata (s : StoreState) (k : String) :
    (ensureKind s k).globalMetadata = s.globalMetadata := by
  unfold ensureKind
  rcases klookup s.kinds k <;> rfl

theorem ensureKind_parameterEnhancers (s : StoreState) (k : String) :
    (ensureKind s k).parameterEnhancers = s.parameterEnhancers := by
  unfold ensureKind
  rcases klookup s.kinds k <;> rfl

theorem ensureKind_configuring (s : StoreState) (b : Bool) (k : String) :
    ensureKind { s with configuring := b } k =
      { ensureKind s k with configuring := b } := by
  unfold ensureKind
  dsimp only
  rcases klookup s.kinds k <;> rfl

/-- With the configuring guard satisfied, addStory succeeds, releases no
handle, and produces the addStoryU state. -/
theorem addStory_ok_of_configuring (s : StoreState) (a : AddStoryArgs) (u : Bool)
    (hcfg : s.configuring = true) :
    addStory s a u = .ok (addStoryU s a, []) := by
  simp [addStory, addStoryU, hcfg]

theorem addStoryU_stories (s : StoreState) (a : AddStoryArgs) :
    (addStoryU s a).stories = kset s.stories a.id (builtStoryItem s a) := by
  simp only [addStoryU, addStory, Bool.not_true, Bool.and_false,
    Bool.false_eq_true, if_false]
  rw [ensureKind_stories]

theorem addStoryU_nextHandle (s : StoreState) (a : AddStoryArgs) :
    (addStoryU s a).nextHandle = s.nextHandle + 1 := by
  simp only [addStoryU, addStory, Bool.not_true, Bool.and_false,
    Bool.false_eq_true, if_false]
  rw [ensureKind_nextHandle]

/-! ### Claim C5 -/

/-- C5: the claim states that each invocation of a stored storyFn passes the
composed render function a context holding the identity fields, the current
merged global, kind and story parameters, the resource handle, the current
story args and the current global args.  The code cannot do so: the closure
resolves this.getFullParameters(id) for the merged parameters, but no member
of that name exists on the StoryStore class; the parameter-merging method is
declared as getAllParameters (and is called nowhere), so every storyFn
invocation fails on the missing method before any context reaches the
composed render function.  This theorem records the member-name gap. -/
theorem c5_storyFn_calls_missing_member :
    storyFnParametersCall ∉ storyStoreMembers ∧
    "getAllParameters" ∈ storyStoreMembers := by
  decide

/-! ### Claim C8 -/

/-- C8: fromId never throws: an unknown id yields the null result, a stored
entry without the composed-render capability (getDecorated) yields the null
result, and otherwise the entry is returned merged with the current global
args.  The embedding of fromId is a total function: the try/catch of the
source has nothing left to catch because every operation in the body is
non-throwing, so the catch arm that logs and returns null is unreachable
and the three cases below are exhaustive. -/
theorem c8_fromId_never_fatal (s : StoreState) (id : String) :
    (klookup s.stories id = none → fromId s id = none) ∧
    (∀ item, klookup s.stories id = some item → item.getDecorated = none →
      fromId s id = none) ∧
    (∀ item, klookup s.stories id = some item → item.getDecorated.isSome →
      fromId s id = some { item := item, globalArgs := s.globalArgs }) := by
  refine ⟨fun h => ?_, fun item h hd => ?_, fun item h hd => ?_⟩
  · simp [fromId, h]
  · simp [fromId, h, hd]
  · simp [fromId, h, hd]

/-- Witness for C8: at the registered story of c8S the known-id case of
c8_fromId_never_fatal produces the published entry, and at an unknown id the
null result. -/
theorem c8_fromId_never_fatal_witness :
    fromId c8S "a--1" = some { item := c8item, globalArgs := [] } ∧
    fromId c8S "zzz" = none :=
  ⟨(c8_fromId_never_fatal c8S "a--1").2.2 c8item (by decide) (by decide),
   (c8_fromId_never_fatal c8S "zzz").1 (by decide)⟩

/-! ### Claim C9 -/

/-- C9: a story registered with story-scoped decorators S under a kind with
decorators K while the global decorators are G stores, for the external
composition function, exactly the sequence S ++ K ++ G (story first, then
kind, then global), together with a fresh single-slot memo cell, so that
over any number of renders the composition function is invoked at most
once (and not at all before the first render). -/
theorem c9_decorator_order_and_single_composition (s : StoreState)
    (a : AddStoryArgs) (u : Bool) (s2 : StoreState) (tr : List Nat)
    (hcfg : s.configuring = true)
    (h : addStory s a u = .ok (s2, tr)) :
    ∃ item, klookup s2.stories a.id = some item ∧
      item.decorators = a.decorators ++
        ((klookup s.kinds a.kind).map (fun km => km.decorators)).getD [] ++
        s.globalMetadata.decorators ∧
      item.getDecorated = some { cached := none } ∧
      (∀ (compose : Unit → Nat) (n : Nat),
        (runMemo compose n { cached := none }).2 ≤ 1) ∧
      (∀ (compose : Unit → Nat),
        (runMemo compose 0 { cached := none }).2 = 0) := by
  rw [addStory_ok_of_configuring s a u hcfg] at h
  injection h with h2
  rw [Prod.mk.injEq] at h2
  obtain ⟨hs2, htr⟩ := h2
  refine ⟨builtStoryItem s a, ?_, ?_, rfl, fun compose n => runMemo_fresh_le_one compose n, fun _ => rfl⟩
  · rw [← hs2, addStoryU_stories, klookup_kset_self]
  · show a.decorators ++
      ((klookup (ensureKind s a.kind).kinds a.kind).getD
        { order := 0, parameters := [], decorators := [] }).decorators ++
      (ensureKind s a.kind).globalMetadata.decorators = _
    rw [klookup_ensureKind_self, ensureKind_globalMetadata]
    rcases klookup s.kinds a.kind with _ | km <;> rfl

/-- Witness for C9: registering the story with decorator 10 under kind A
(decorator 30) with global decorator 40 stores the composition input
[10, 30, 40] and a fresh memo cell. -/
theorem c9_decorator_order_witness :
    ∃ item, klookup (okS (addStory c9S c9A false)).stories "a--1" = some item ∧
      item.decorators = [10] ++
        ((klookup c9S.kinds "A").map (fun km => km.decorators)).getD [] ++
        c9S.globalMetadata.decorators ∧
      item.getDecorated = some { cached := none } ∧
      (∀ (compose : Unit → Nat) (n : Nat),
        (runMemo compose n { cached := none }).2 ≤ 1) ∧
      (∀ (compose : Unit → Nat),
        (runMemo compose 0 { cached := none }).2 = 0) :=
  c9_decorator_order_and_single_composition c9S c9A false
    (okS (addStory c9S c9A false)) [] rfl
    (addStory_ok_of_configuring c9S c9A false rfl)

/-! ### Claim C10 -/

/-- C10: addStory on an id already present replaces the old entry with the
new one carrying a fresh resource handle; the overwrite releases nothing,
and even removing the id afterwards releases only the fresh handle, so the
replaced entry's handle is never released (it leaks). -/
theorem c10_overwrite_leaks_replaced_handle (s : StoreState) (a : AddStoryArgs)
    (old : StoreItem) (s2 : StoreState) (tr : List Nat)
    (hcfg : s.configuring = true)
    (hold : klookup s.stories a.id = some old)
    (hb : handlesBound s)
    (h : addStory s a false = .ok (s2, tr)) :
    tr = [] ∧
    (klookup s2.stories a.id).map (fun i => i.hooks) = some s.nextHandle ∧
    old.hooks ≠ s.nextHandle ∧
    (∀ s3 tr2, remove s2 a.id true = .ok (s3, tr2) → old.hooks ∉ tr2) := by
  rw [addStory_ok_of_configuring s a false hcfg] at h
  injection h with h2
  rw [Prod.mk.injEq] at h2
  obtain ⟨hs2, htr⟩ := h2
  have hlt : old.hooks < s.nextHandle := hb (a.id, old) (klookup_mem hold)
  have hhooks : (builtStoryItem s a).hooks = s.nextHandle := by
    show (ensureKind s a.kind).nextHandle = s.nextHandle
    exact ensureKind_nextHandle s a.kind
  have hstories : klookup s2.stories a.id = some (builtStoryItem s a) := by
    rw [← hs2, addStoryU_stories, klookup_kset_self]
  refine ⟨htr.symm, ?_, Nat.ne_of_lt hlt, ?_⟩
  · rw [hstories, Option.map_some']
    rw [hhooks]
  · intro s3 tr2 hrem
    unfold remove at hrem
    rw [if_neg (by simp), hstories] at hrem
    injection hrem with hrem2
    rw [Prod.mk.injEq] at hrem2
    obtain ⟨_, htr2⟩ := hrem2
    rw [← htr2, hhooks]
    simp [Nat.ne_of_lt hlt]

/-- Witness for C10: overwriting a--1 installs fresh handle 1, releases
nothing, and a later remove releases only handle 1, never handle 0 of the
replaced entry. -/
theorem c10_overwrite_leaks_witness :
    ([] : List Nat) = [] ∧
    (klookup (okS (addStory c10S
        { id := "a--1", kind := "A", name := "two", original := 6 }
        false)).stories "a--1").map (fun i => i.hooks) = some c10S.nextHandle ∧
    c8item.hooks ≠ c10S.nextHandle ∧
    (∀ s3 tr2, remove (okS (addStory c10S
        { id := "a--1", kind := "A", name := "two", original := 6 } false))
        "a--1" true = .ok (s3, tr2) → c8item.hooks ∉ tr2) :=
  c10_overwrite_leaks_replaced_handle c10S
    { id := "a--1", kind := "A", name := "two", original := 6 }
    c8item (okS (addStory c10S
      { id := "a--1", kind := "A", name := "two", original := 6 } false)) []
    rfl (by decide) (by unfold handlesBound; decide)
    (addStory_ok_of_configuring c10S
      { id := "a--1", kind := "A", name := "two", original := 6 } false rfl)

/-! ### Claim C1 -/

/-- C1 counterexample: the claim asserts that all five of addStory, remove,
removeStoryKind, addKindMetadata and addGlobalMetadata raise an error and
leave the store unchanged when invoked while not configuring without the
bypass; but addGlobalMetadata and addKindMetadata carry no guard at all in
the source: on a non-configuring store they raise nothing and mutate the
global and kind metadata. -/
theorem c1_metadata_unguarded_counterexample :
    c1S.configuring = false ∧
    (addGlobalMetadata c1S [("theme", JVal.str "dark")] []).globalMetadata.parameters ≠
      c1S.globalMetadata.parameters ∧
    (addKindMetadata c1S "K" [("note", JVal.num 1)] []).kinds ≠ c1S.kinds := by
  refine ⟨rfl, by decide, by decide⟩

/-- C1 amended: invoked while not configuring and without the allowUnsafe
bypass, addStory, remove and removeStoryKind raise an error before mutating
anything (so the store the caller holds is unchanged), while addKindMetadata
and addGlobalMetadata are not guarded: they never raise and their effect is
independent of the configuring flag. -/
theorem c1_mutation_guard (s : StoreState) (hcfg : s.configuring = false) :
    (∀ a, addStory s a false = .error .cannotAddStory) ∧
    (∀ id, remove s id false = .error .cannotRemove) ∧
    (∀ kind, removeStoryKind s kind false = .error .cannotRemoveKind) ∧
    (∀ b p d, addGlobalMetadata { s with configuring := b } p d =
      { addGlobalMetadata s p d with configuring := b }) ∧
    (∀ b kind p d, addKindMetadata { s with configuring := b } kind p d =
      { addKindMetadata s kind p d with configuring := b }) := by
  refine ⟨fun a => by simp [addStory, hcfg], fun id => by simp [remove, hcfg],
    fun kind => by simp [removeStoryKind, hcfg], fun b p d => rfl,
    fun b kind p d => ?_⟩
  unfold addKindMetadata
  rw [ensureKind_configuring]

/-- Witness for C1: on the concrete non-configuring store the three guarded
operations raise, and addGlobalMetadata behaves identically with the flag
forced on. -/
theorem c1_mutation_guard_witness :
    addStory c1S { id := "a--1", kind := "A", name := "one", original := 5 }
      false = .error .cannotAddStory ∧
    remove c1S "a--1" false = .error .cannotRemove ∧
    removeStoryKind c1S "A" false = .error .cannotRemoveKind ∧
    addGlobalMetadata { c1S with configuring := true } [("p", JVal.num 1)] [] =
      { addGlobalMetadata c1S [("p", JVal.num 1)] [] with configuring := true } :=
  ⟨(c1_mutation_guard c1S rfl).1 _, (c1_mutation_guard c1S rfl).2.1 _,
   (c1_mutation_guard c1S rfl).2.2.1 _,
   (c1_mutation_guard c1S rfl).2.2.2.1 true _ _⟩

/-! ### Claim C2 -/

/-- C2 counterexample: the claim asserts every key already present in the
folded base keeps its previous-session value; here x is present in the base
(with the falsy value false) and present in the previous global args (with
value true), yet finishConfiguring leaves x at false, because the source
tests the truthiness of the base value (if (acc[key])) rather than the
presence of the key. -/
theorem c2_falsy_base_counterexample :
    oget c2S.globalArgs "x" = some (JVal.bool true) ∧
    ((klookup c2S.stories "a--1").map
      (fun i => oget (globalArgsBase i.parameters) "x")) =
      some (some (JVal.bool false)) ∧
    oget (finishConfiguring c2S).globalArgs "x" = some (JVal.bool false) := by
  decide

/-- C2 amended: when finishConfiguring runs with at least one story
registered, the new global args have exactly the keys of the base
spread of defaultGlobalArgs (recomputed from the first story's
globalArgTypes declared truthy defaults) with the parameters' initial
globalArgs; a key whose base value is truthy and which was present in the
previous global argument map keeps its previous value, every other key
takes its base value, and keys no longer declared are dropped. -/
theorem c2_globalArgs_reconciliation (s : StoreState) (id0 : String)
    (item : StoreItem) (rest : List (String × StoreItem))
    (hs : s.stories = (id0, item) :: rest)
    (hdec : item.getDecorated.isSome)
    (hn : (s.globalArgs.map Prod.fst).Nodup) :
    (finishConfiguring s).configuring = false ∧
    ∀ q, oget (finishConfiguring s).globalArgs q =
      match oget (globalArgsBase item.parameters) q with
      | none => none
      | some b =>
          if b.truthy = true ∧ (oget s.globalArgs q).isSome = true then
            oget s.globalArgs q
          else some b := by
  have hfrom : ∀ t : StoreState, t.stories = (id0, item) :: rest →
      fromId t id0 = some { item := item, globalArgs := t.globalArgs } := by
    intro t ht
    unfold fromId
    rw [ht, klookup_cons, if_pos rfl]
    dsimp only
    rw [if_pos hdec]
  have hfc : finishConfiguring s =
      { { s with configuring := false } with
          globalArgs := reconcileGlobalArgs s.globalArgs
            (globalArgsBase item.parameters) } := by
    unfold finishConfiguring
    dsimp only
    rw [hs]
    dsimp only
    rw [hfrom _ rfl]
  rw [hfc]
  refine ⟨rfl, fun q => ?_⟩
  show oget (reconcileGlobalArgs s.globalArgs (globalArgsBase item.parameters)) q = _
  rcases hb : oget (globalArgsBase item.parameters) q with _ | b
  · rcases hp : oget s.globalArgs q with _ | v
    · rw [reconcile_get_of_not_mem _ _ q ((klookup_eq_none_iff _ q).mp hp), hb]
    · rw [reconcile_get_of_mem s.globalArgs _ q v hn (klookup_mem hp)]
      have ht : truthyAt (globalArgsBase item.parameters) q = false := by
        simp [truthyAt, hb, truthyOpt]
      rw [ht]
      simp only [Bool.false_eq_true, if_false]
      rw [hb]
  · rcases hp : oget s.globalArgs q with _ | v
    · rw [reconcile_get_of_not_mem _ _ q ((klookup_eq_none_iff _ q).mp hp), hb]
      simp
    · rw [reconcile_get_of_mem s.globalArgs _ q v hn (klookup_mem hp)]
      have ht : truthyAt (globalArgsBase item.parameters) q = b.truthy := by
        simp [truthyAt, hb, truthyOpt]
      rw [ht, hb]
      by_cases htr : b.truthy = true
      · simp [htr]
      · simp [htr]

/-- Witness for C2: reconciliation keeps the still-declared user-set x=9,
fills the newly declared default y=2, and drops the stale z. -/
theorem c2_globalArgs_reconciliation_witness :
    oget (finishConfiguring c2W).globalArgs "x" = some (JVal.num 9) ∧
    oget (finishConfiguring c2W).globalArgs "y" = some (JVal.num 2) ∧
    oget (finishConfiguring c2W).globalArgs "z" = none := by
  have h := c2_globalArgs_reconciliation c2W "a--1" c2Witem []
    (by decide) (by decide) (by decide)
  refine ⟨?_, ?_, ?_⟩
  · rw [h.2 "x"]
    decide
  · rw [h.2 "y"]
    decide
  · rw [h.2 "z"]
    decide

/-! ### Claim C3 -/

/-- The initial args of a built entry, phrased over the kind record of the
pre-registration state (a fresh kind contributes empty parameters). -/
theorem builtStoryItem_args (s : StoreState) (a : AddStoryArgs) :
    (builtStoryItem s a).args =
      jsSpreadInto
        (defaultsFromArgTypes ((oget (resolveArgParameters
          s.globalMetadata.parameters
          (((klookup s.kinds a.kind).map (fun km => km.parameters)).getD [])
          a.parameters s.parameterEnhancers) "argTypes").getD (JVal.obj [])))
        (oget (resolveArgParameters s.globalMetadata.parameters
          (((klookup s.kinds a.kind).map (fun km => km.parameters)).getD [])
          a.parameters s.parameterEnhancers) "args") := by
  show jsSpreadInto
      (defaultsFromArgTypes ((oget (resolveArgParameters
        (ensureKind s a.kind).globalMetadata.parameters
        ((klookup (ensureKind s a.kind).kinds a.kind).getD
          { order := 0, parameters := [], decorators := [] }).parameters
        a.parameters (ensureKind s a.kind).parameterEnhancers)
        "argTypes").getD (JVal.obj [])))
      (oget (resolveArgParameters
        (ensureKind s a.kind).globalMetadata.parameters
        ((klookup (ensureKind s a.kind).kinds a.kind).getD
          { order := 0, parameters := [], decorators := [] }).parameters
        a.parameters (ensureKind s a.kind).parameterEnhancers) "args") = _
  rw [klookup_ensureKind_self, ensureKind_globalMetadata,
    ensureKind_parameterEnhancers]
  rcases klookup s.kinds a.kind with _ | km <;> rfl

/-- C3 counterexample: the claim asserts that every entry of the resolved
argTypes that declares a defaultValue contributes it to defaultArgs and
hence to the initial args; here x declares the defaultValue 0, yet the
stored initial args are empty, because the source keeps a declared default
only when it is truthy (if (defaultValue)). -/
theorem c3_falsy_default_counterexample :
    jsField ((oget (resolveArgParameters initialState.globalMetadata.parameters
        []
        [("argTypes", JVal.obj [("x", JVal.obj [("defaultValue", JVal.num 0)])])]
        initialState.parameterEnhancers) "argTypes").getD (JVal.obj []))
      "x" = some (JVal.obj [("defaultValue", JVal.num 0)]) ∧
    ((klookup c3S.stories "a--1").map (fun i => i.args)) = some [] := by
  refine ⟨by decide, by decide⟩

/-- C3 amended: at registration, every entry of the resolved argTypes (after
layering and enhancers) that declares a truthy defaultValue is mapped by the
computed defaultArgs to that default; the stored initial args are the object
spread of defaultArgs then the resolved explicit args, so an explicit arg
wins key-for-key and defaults fill the remaining declared keys. -/
theorem c3_argument_defaulting (s : StoreState) (a : AddStoryArgs) (u : Bool)
    (s2 : StoreState) (tr : List Nat)
    (hcfg : s.configuring = true)
    (h : addStory s a u = .ok (s2, tr)) :
    ∃ item, klookup s2.stories a.id = some item ∧
      ((∀ n t d,
          ((jsEntries ((oget (resolveArgParameters s.globalMetadata.parameters
            (((klookup s.kinds a.kind).map (fun km => km.parameters)).getD [])
            a.parameters s.parameterEnhancers) "argTypes").getD
              (JVal.obj []))).map Prod.fst).Nodup →
          klookup (jsEntries ((oget (resolveArgParameters
            s.globalMetadata.parameters
            (((klookup s.kinds a.kind).map (fun km => km.parameters)).getD [])
            a.parameters s.parameterEnhancers) "argTypes").getD
              (JVal.obj []))) n = some t →
          jsField t "defaultValue" = some d → d.truthy = true →
          oget (defaultsFromArgTypes ((oget (resolveArgParameters
            s.globalMetadata.parameters
            (((klookup s.kinds a.kind).map (fun km => km.parameters)).getD [])
            a.parameters s.parameterEnhancers) "argTypes").getD
              (JVal.obj []))) n = some d) ∧
        (∀ ao,
          oget (resolveArgParameters s.globalMetadata.parameters
            (((klookup s.kinds a.kind).map (fun km => km.parameters)).getD [])
            a.parameters s.parameterEnhancers) "args" = some (JVal.obj ao) →
          (ao.map Prod.fst).Nodup →
          ∀ n, oget item.args n = (oget ao n).or
            (oget (defaultsFromArgTypes ((oget (resolveArgParameters
              s.globalMetadata.parameters
              (((klookup s.kinds a.kind).map (fun km => km.parameters)).getD [])
              a.parameters s.parameterEnhancers) "argTypes").getD
                (JVal.obj []))) n)) ∧
        (oget (resolveArgParameters s.globalMetadata.parameters
            (((klookup s.kinds a.kind).map (fun km => km.parameters)).getD [])
            a.parameters s.parameterEnhancers) "args" = none →
          item.args = defaultsFromArgTypes ((oget (resolveArgParameters
            s.globalMetadata.parameters
            (((klookup s.kinds a.kind).map (fun km => km.parameters)).getD [])
            a.parameters s.parameterEnhancers) "argTypes").getD
              (JVal.obj [])))) := by
  rw [addStory_ok_of_configuring s a u hcfg] at h
  injection h with h2
  rw [Prod.mk.injEq] at h2
  obtain ⟨hs2, htr⟩ := h2
  refine ⟨builtStoryItem s a,
    by rw [← hs2, addStoryU_stories, klookup_kset_self], ?_, ?_, ?_⟩
  · intro n t d hn hAT hd htruthy
    rw [defaultsFromArgTypes_get _ n hn, hAT]
    simp [hd, htruthy]
  · intro ao hao hn n
    rw [builtStoryItem_args, hao]
    exact oget_ospread _ ao hn n
  · intro hnone
    rw [builtStoryItem_args, hnone]
    rfl

/-- Witness for C3: with argTypes declaring defaultValue 1 for x and 5 for y
and explicit args x=2, the stored initial args give x=2 (explicit wins) and
y=5 (default fills). -/
theorem c3_argument_defaulting_witness :
    ∃ item,
      klookup (okS (addStory initialState
        { id := "a--1", kind := "A", name := "one", original := 7,
          parameters :=
            [("argTypes", JVal.obj
               [("x", JVal.obj [("defaultValue", JVal.num 1)]),
                ("y", JVal.obj [("defaultValue", JVal.num 5)])]),
             ("args", JVal.obj [("x", JVal.num 2)])] }
        false)).stories "a--1" = some item ∧
      oget item.args "x" = some (JVal.num 2) ∧
      oget item.args "y" = some (JVal.num 5) := by
  obtain ⟨item, hitem, hdef, hwin, _⟩ := c3_argument_defaulting initialState
    { id := "a--1", kind := "A", name := "one", original := 7,
      parameters :=
        [("argTypes", JVal.obj
           [("x", JVal.obj [("defaultValue", JVal.num 1)]),
            ("y", JVal.obj [("defaultValue", JVal.num 5)])]),
         ("args", JVal.obj [("x", JVal.num 2)])] }
    false
    (okS (addStory initialState
      { id := "a--1", kind := "A", name := "one", original := 7,
        parameters :=
          [("argTypes", JVal.obj
             [("x", JVal.obj [("defaultValue", JVal.num 1)]),
              ("y", JVal.obj [("defaultValue", JVal.num 5)])]),
           ("args", JVal.obj [("x", JVal.num 2)])] }
      false)) [] rfl
    (addStory_ok_of_configuring initialState _ false rfl)
  refine ⟨item, hitem, ?_, ?_⟩
  · rw [hwin [("x", JVal.num 2)] (by decide) (by decide) "x"]
    decide
  · rw [hwin [("x", JVal.num 2)] (by decide) (by decide) "y"]
    decide

/-! ### Claim C4 -/

/-- Under a well-formed story table, the handles released by
cleanHooksForKind are exactly those of the stories visible through the
default-filtered raw view whose kind matches. -/
theorem cleanHooksForKind_eq (s : StoreState) (kind : String)
    (hwf : wfStories s) :
    cleanHooksForKind s kind =
      ((((s.stories.map Prod.snd).filter (fun i => i.getDecorated.isSome)).filter
        (fun i => includeStory i none)).filter (fun i => i.kind == kind)).map
        StoreItem.hooks := by
  unfold cleanHooksForKind
  rw [raw_eq s none hwf, List.filter_map, List.map_map]
  rfl

/-- C4 counterexample: the claim asserts removeStoryKind releases the
resource handle of every member story exactly once; here the docs-only
member k--a (handle 0) is removed from the table, yet its handle occurs
zero times in the release trace (the trace is [1], handle of k--b alone),
because the release loop reads the member stories through the docs-only
filtered raw view. -/
theorem c4_docsOnly_member_not_released_counterexample :
    ((klookup c4S.stories "k--a").map (fun i => i.hooks)) = some 0 ∧
    okTrace (removeStoryKind c4S "K" false) = [1] ∧
    klookup (okS (removeStoryKind c4S "K" false)).stories "k--a" = none ∧
    (okTrace (removeStoryKind c4S "K" false)).count 0 = 0 := by
  refine ⟨by decide, by decide, by decide, by decide⟩

/-- C4 amended: for a known kind, removeStoryKind (when permitted) resets
that kind's parameters and decorators to empty while keeping its order,
leaves every other kind record untouched, removes every story of the kind
from the table, and releases exactly once the handle of every member story
that carries the composed-render capability and is not docs-only; the
handles of docs-only member stories are not released (the release loop
reads the docs-only filtered raw view).  For an unknown kind the operation
is a no-op. -/
theorem c4_removeStoryKind_releases (s : StoreState) (kind : String) (u : Bool)
    (hcfg : s.configuring = true)
    (hwf : wfStories s) (hh : handlesNodup s) :
    (klookup s.kinds kind = none → removeStoryKind s kind u = .ok (s, [])) ∧
    (∀ km, klookup s.kinds kind = some km →
      ∀ s2 tr, removeStoryKind s kind u = .ok (s2, tr) →
        klookup s2.kinds kind =
          some { order := km.order, parameters := [], decorators := [] } ∧
        (∀ k2, k2 ≠ kind → klookup s2.kinds k2 = klookup s.kinds k2) ∧
        s2.stories = s.stories.filter (fun f => f.2.kind != kind) ∧
        (∀ p ∈ s.stories, p.2.kind = kind → p.2.getDecorated.isSome →
          includeStory p.2 none = true → tr.count p.2.hooks = 1) ∧
        (∀ p ∈ s.stories, p.2.kind = kind → includeStory p.2 none = false →
          p.2.hooks ∉ tr)) := by
  have hg : (!s.configuring && !u) = false := by
    rw [hcfg]
    rfl
  constructor
  · intro h
    unfold removeStoryKind
    rw [hg]
    dsimp only
    rw [h]
    exact rfl
  · intro km hkm s2 tr h
    unfold removeStoryKind at h
    rw [hg] at h
    dsimp only at h
    rw [hkm] at h
    dsimp only at h
    injection h with h2
    rw [Prod.mk.injEq] at h2
    obtain ⟨hs2, htr⟩ := h2
    have htr2 : tr =
        ((((s.stories.map Prod.snd).filter
          (fun i => i.getDecorated.isSome)).filter
          (fun i => includeStory i none)).filter (fun i => i.kind == kind)).map
          StoreItem.hooks := by
      rw [← htr]
      exact cleanHooksForKind_eq s kind hwf
    have hsubmap : tr.Sublist ((s.stories.map Prod.snd).map StoreItem.hooks) := by
      rw [htr2]
      exact List.Sublist.map StoreItem.hooks
        (((List.filter_sublist _).trans (List.filter_sublist _)).trans
          (List.filter_sublist _))
    refine ⟨?_, ?_, ?_, ?_, ?_⟩
    · rw [← hs2]
      dsimp only
      rw [klookup_kset_self]
    · intro k2 hk2
      rw [← hs2]
      dsimp only
      exact klookup_kset_ne s.kinds kind k2 _ hk2
    · rw [← hs2]
    · intro p hp hkind hdec hinc
      have hmemsnd : p.2 ∈ s.stories.map Prod.snd :=
        List.mem_map.mpr ⟨p, hp, rfl⟩
      have hmem3 : p.2 ∈ (((s.stories.map Prod.snd).filter
          (fun i => i.getDecorated.isSome)).filter
          (fun i => includeStory i none)).filter (fun i => i.kind == kind) := by
        rw [List.mem_filter, List.mem_filter, List.mem_filter]
        refine ⟨⟨⟨hmemsnd, hdec⟩, hinc⟩, by simp [hkind]⟩
      have hle : tr.count p.2.hooks ≤ 1 := by
        have h1 : tr.count p.2.hooks ≤
            ((s.stories.map Prod.snd).map StoreItem.hooks).count p.2.hooks :=
          hsubmap.count_le p.2.hooks
        have h2 : ((s.stories.map Prod.snd).map StoreItem.hooks).count
            p.2.hooks = 1 :=
          List.count_eq_one_of_mem hh
            (List.mem_map.mpr ⟨p.2, hmemsnd, rfl⟩)
        omega
      have hge : 0 < tr.count p.2.hooks := by
        rw [List.count_pos_iff]
        rw [htr2]
        exact List.mem_map.mpr ⟨p.2, hmem3, rfl⟩
      omega
    · intro p hp hkind hinc hcontra
      rw [htr2] at hcontra
      obtain ⟨q, hq3, hqh⟩ := List.mem_map.mp hcontra
      rw [List.mem_filter, List.mem_filter, List.mem_filter] at hq3
      obtain ⟨⟨⟨hqsnd, hqdec⟩, hqinc⟩, hqkind⟩ := hq3
      have hpsnd : p.2 ∈ s.stories.map Prod.snd :=
        List.mem_map.mpr ⟨p, hp, rfl⟩
      have hh2 : (((s.stories.map Prod.snd).map StoreItem.hooks)).Nodup := hh
      have hqp : q = p.2 :=
        List.inj_on_of_nodup_map hh2 hqsnd hpsnd hqh
      rw [hqp] at hqinc
      rw [hqinc] at hinc
      exact Bool.noConfusion hinc

/-- Witness for C4: removing kind K of c4S resets the kind record, releases
the ordinary member handle 1 exactly once, and never releases the docs-only
member handle 0. -/
theorem c4_removeStoryKind_releases_witness :
    klookup (okS (removeStoryKind c4S "K" false)).kinds "K" =
      some { order := 0, parameters := [], decorators := [] } ∧
    (okTrace (removeStoryKind c4S "K" false)).count 1 = 1 ∧
    (0 : Nat) ∉ okTrace (removeStoryKind c4S "K" false) := by
  have h := (c4_removeStoryKind_releases c4S "K" false rfl
    (by refine ⟨by decide, by decide⟩) (by unfold handlesNodup; decide)).2
    { order := 0, parameters := [], decorators := [] } (by decide)
    (okS (removeStoryKind c4S "K" false))
    (okTrace (removeStoryKind c4S "K" false)) rfl
  refine ⟨h.1, ?_, ?_⟩
  · exact h.2.2.2.1 ("k--b", c4itemB) (by decide) (by decide) (by decide)
      (by decide)
  · exact h.2.2.2.2 ("k--a", c4itemA) (by decide) (by decide) (by decide)

/-! ### Claim C6 -/

theorem storybookStep_serials (P : Nat → Prop) (acc : List GetStorybookKindM)
    (p : PublishedStoreItem)
    (hacc : ∀ kd ∈ acc, ∀ nr ∈ kd.stories, P nr.2)
    (hp : P p.item.hooks) :
    ∀ kd ∈ storybookStep acc p, ∀ nr ∈ kd.stories, P nr.2 := by
  intro kd hkd nr hnr
  unfold storybookStep at hkd
  by_cases hinc : includeStory p.item none
  · rw [hinc] at hkd
    simp only [Bool.not_true, Bool.false_eq_true, if_false] at hkd
    have hacc2 : ∀ kd2 ∈ (if (acc.find? (fun kd2 => kd2.kind == p.item.kind)).isSome
        then acc
        else acc ++
          [{ kind := p.item.kind
             fileName := oget p.item.parameters "fileName"
             stories := [] }]), ∀ nr2 ∈ kd2.stories, P nr2.2 := by
      by_cases hf : (acc.find? (fun kd2 => kd2.kind == p.item.kind)).isSome
      · rw [if_pos hf]
        exact hacc
      · rw [if_neg hf]
        intro kd2 hkd2 nr2 hnr2
        rcases List.mem_append.mp hkd2 with h2 | h2
        · exact hacc kd2 h2 nr2 hnr2
        · rw [List.mem_singleton] at h2
          rw [h2] at hnr2
          simp at hnr2
    obtain ⟨kd2, hkd2, hkdeq⟩ := List.mem_map.mp hkd
    by_cases hkind : (kd2.kind == p.item.kind) = true
    · rw [if_pos hkind] at hkdeq
      rw [← hkdeq] at hnr
      dsimp only at hnr
      rcases List.mem_append.mp hnr with h2 | h2
      · exact hacc2 kd2 hkd2 nr h2
      · rw [List.mem_singleton] at h2
        rw [h2]
        exact hp
    · rw [if_neg hkind] at hkdeq
      rw [← hkdeq] at hnr
      exact hacc2 kd2 hkd2 nr hnr
  · rw [Bool.not_eq_true] at hinc
    rw [hinc] at hkd
    simp only [Bool.not_false, if_true] at hkd
    exact hacc kd hkd nr hnr

theorem foldl_storybookStep_serials (P : Nat → Prop)
    (l : List PublishedStoreItem) (acc : List GetStorybookKindM)
    (hacc : ∀ kd ∈ acc, ∀ nr ∈ kd.stories, P nr.2)
    (hl : ∀ p ∈ l, P p.item.hooks) :
    ∀ kd ∈ l.foldl storybookStep acc, ∀ nr ∈ kd.stories, P nr.2 := by
  induction l generalizing acc with
  | nil => exact hacc
  | cons p t ih =>
      rw [List.foldl_cons]
      exact ih (storybookStep acc p)
        (storybookStep_serials P acc p hacc (hl p (List.mem_cons_self p t)))
        (fun q hq => hl q (List.mem_cons_of_mem p hq))

/-- Every (name, render) pair published by getStorybook originates in a
story of the default-filtered raw view: its render serial is the serial of
some raw story. -/
theorem getStorybook_serials (s : StoreState) :
    ∀ kd ∈ getStorybook s, ∀ nr ∈ kd.stories,
      nr.2 ∈ (raw s none).map (fun p => p.item.hooks) := by
  intro kd hkd
  unfold getStorybook at hkd
  have hkd2 : kd ∈ (raw s none).foldl storybookStep [] :=
    (List.perm_insertionSort _ _).mem_iff.mp hkd
  exact foldl_storybookStep_serials _ (raw s none) []
    (by intro kd2 h; simp at h)
    (fun p hp => List.mem_map.mpr ⟨p, hp, rfl⟩) kd hkd2

/-- C6 counterexample: the claim asserts a story whose effective (merged)
parameters carry a truthy docsOnly is excluded from raw(); here the
effective parameters of k--s have docsOnly true (inherited from the kind
scope), yet raw() includes the story, because the docs-only check reads
only the story-scoped stored parameters. -/
theorem c6_effective_docsOnly_counterexample :
    ((getAllParameters c6S "k--s").map
      (fun p => truthyOpt (oget p "docsOnly"))) = some true ∧
    "k--s" ∈ (raw c6S none).map (fun p => p.item.id) := by
  refine ⟨by decide, by decide⟩

/-- C6 amended: a story whose story-scoped stored parameters carry a truthy
docsOnly is excluded from raw() and from getStorybook() (default options)
but included in getStoriesForManager(), which is exactly
extract with includeDocsOnly set; the docs-only check reads the
story-scoped parameters, not the merged effective view. -/
theorem c6_docsOnly_story_scoped
    (cmp : (String × StoreItem) → (String × StoreItem) → Int)
    (s : StoreState) (id : String) (item : StoreItem)
    (hwf : wfStories s) (hh : handlesNodup s)
    (hm : (id, item) ∈ s.stories)
    (hdocs : isStoryDocsOnly item.parameters = true) :
    (∀ p ∈ raw s none, p.item.id ≠ id) ∧
    (∀ kd ∈ getStorybook s, ∀ nr ∈ kd.stories, nr.2 ≠ item.hooks) ∧
    id ∈ (extract cmp s (some { includeDocsOnly := true })).map Prod.fst ∧
    getStoriesForManager cmp s =
      extract cmp s (some { includeDocsOnly := true }) := by
  have hh2 : (((s.stories.map Prod.snd).map StoreItem.hooks)).Nodup := hh
  have hitemsnd : item ∈ s.stories.map Prod.snd :=
    List.mem_map.mpr ⟨(id, item), hm, rfl⟩
  have hincfalse : includeStory item none = false := by
    simp [includeStory, hdocs]
  refine ⟨?_, ?_, ?_, rfl⟩
  · intro p hp hpid
    rw [raw_eq s none hwf] at hp
    obtain ⟨i, hi, hpi⟩ := List.mem_map.mp hp
    obtain ⟨hi1, hinc⟩ := List.mem_filter.mp hi
    obtain ⟨hisnd, _⟩ := List.mem_filter.mp hi1
    obtain ⟨e, he, hei⟩ := List.mem_map.mp hisnd
    have heid : i.id = e.1 := by
      rw [← hei]
      exact hwf.2 e he
    have hiid : i.id = id := by
      rw [← hpi] at hpid
      exact hpid
    have he2 : (id, i) ∈ s.stories := by
      have : e = (id, i) := by
        obtain ⟨e1, e2⟩ := e
        simp only at hei
        rw [hei] at he ⊢
        rw [← hiid, heid]
      rw [← this]
      exact he
    have hlook1 : klookup s.stories id = some i :=
      klookup_of_mem_nodup hwf.1 he2
    have hlook2 : klookup s.stories id = some item :=
      klookup_of_mem_nodup hwf.1 hm
    rw [hlook1] at hlook2
    injection hlook2 with hitem
    rw [hitem] at hinc
    rw [hincfalse] at hinc
    exact Bool.noConfusion hinc
  · intro kd hkd nr hnr hcontra
    have hser := getStorybook_serials s kd hkd nr hnr
    rw [hcontra, raw_eq s none hwf, List.map_map] at hser
    obtain ⟨i, hi, hih⟩ := List.mem_map.mp hser
    obtain ⟨hi1, hinc⟩ := List.mem_filter.mp hi
    obtain ⟨hisnd, _⟩ := List.mem_filter.mp hi1
    have : i = item := List.inj_on_of_nodup_map hh2 hisnd hitemsnd hih
    rw [this, hincfalse] at hinc
    exact Bool.noConfusion hinc
  · have hmem : (id, item) ∈ sortedEntries cmp s :=
      (sortedEntries_perm cmp s).mem_iff.mpr hm
    have hmemf : (id, item) ∈ (sortedEntries cmp s).filter
        (fun f => includeStory f.2 (some { includeDocsOnly := true })) :=
      List.mem_filter.mpr ⟨hmem, rfl⟩
    exact List.mem_map.mpr
      ⟨(id, toExtracted item),
        List.mem_map.mpr ⟨(id, item), hmemf, rfl⟩, rfl⟩

/-- Witness for C6: the docs-only story k--a of c4S is published to the
manager snapshot, which coincides with extract with includeDocsOnly set. -/
theorem c6_docsOnly_story_scoped_witness :
    "k--a" ∈ (extract cmp0 c4S (some { includeDocsOnly := true })).map
      Prod.fst ∧
    getStoriesForManager cmp0 c4S =
      extract cmp0 c4S (some { includeDocsOnly := true }) :=
  ⟨(c6_docsOnly_story_scoped cmp0 c4S "k--a" c4itemA
      (by refine ⟨by decide, by decide⟩) (by unfold handlesNodup; decide)
      (by decide) (by decide)).2.2.1,
   (c6_docsOnly_story_scoped cmp0 c4S "k--a" c4itemA
      (by refine ⟨by decide, by decide⟩) (by unfold handlesNodup; decide)
      (by decide) (by decide)).2.2.2⟩

/-! ### Claim C7 -/

/-- C7: when no story's parameters supply a custom storySort, extract
orders the published entries by ascending kind declaration order with a
stable sort: two included stories of the same kind appear in extract in
their insertion order, and after removing a kind and re-registering stories
(the reload scenario) every previously known kind keeps its order, hence
its relative position among the other kinds. -/
theorem c7_default_ordering_stable
    (cmp : (String × StoreItem) → (String × StoreItem) → Int)
    (s : StoreState) (options : Option StoryOptions)
    (hns : ∀ p ∈ s.stories, truthyOpt (storySortOf p.2) = false) :
    (extract cmp s options).Pairwise (fun e1 e2 =>
      kindOrderD s e1.2.kind ≤ kindOrderD s e2.2.kind) ∧
    (∀ eA eB, [eA, eB].Sublist s.stories → eA.2.kind = eB.2.kind →
      includeStory eA.2 options = true → includeStory eB.2 options = true →
      [(eA.1, toExtracted eA.2), (eB.1, toExtracted eB.2)].Sublist
        (extract cmp s options)) ∧
    (∀ K km, klookup s.kinds K = some km →
      ∀ s1 tr, removeStoryKind s K true = .ok (s1, tr) →
      ∀ l k2 km2, klookup s.kinds k2 = some km2 →
        (klookup (addStoriesU s1 l).kinds k2).map (fun km3 => km3.order) =
          some km2.order) := by
  have hcs : customSortActive s = false := customSortActive_eq_false s hns
  haveI : IsTotal (String × StoreItem)
      (fun a b => kindOrderD s a.2.kind ≤ kindOrderD s b.2.kind) :=
    ⟨fun a b => le_total _ _⟩
  haveI : IsTrans (String × StoreItem)
      (fun a b => kindOrderD s a.2.kind ≤ kindOrderD s b.2.kind) :=
    ⟨fun a b c hab hbc => le_trans hab hbc⟩
  have hsorted : (sortedEntries cmp s).Pairwise
      (fun a b => kindOrderD s a.2.kind ≤ kindOrderD s b.2.kind) := by
    unfold sortedEntries
    by_cases hlen : s.stories.length > 0
    · rw [if_pos hlen, hcs]
      simp only [Bool.false_eq_true, if_false]
      exact List.sorted_insertionSort _ s.stories
    · rw [if_neg hlen]
      have hnil : s.stories = [] := List.length_eq_zero.mp (by omega)
      rw [hnil]
      exact List.Pairwise.nil
  refine ⟨?_, ?_, ?_⟩
  · unfold extract
    rw [List.pairwise_map]
    exact hsorted.filter _
  · intro eA eB hsub hkind hincA hincB
    have hr : kindOrderD s eA.2.kind ≤ kindOrderD s eB.2.kind := by
      rw [hkind]
    have hmemA : eA ∈ s.stories := hsub.subset (by simp)
    have hlen : s.stories.length > 0 :=
      List.length_pos.mpr (List.ne_nil_of_mem hmemA)
    have hsub2 : [eA, eB].Sublist (sortedEntries cmp s) := by
      unfold sortedEntries
      rw [if_pos hlen, hcs]
      simp only [Bool.false_eq_true, if_false]
      exact List.pair_sublist_insertionSort hr hsub
    have hfeq : [eA, eB].filter (fun f => includeStory f.2 options) =
        [eA, eB] := by
      simp [List.filter_cons, hincA, hincB]
    have hsub3 := hsub2.filter (fun f => includeStory f.2 options)
    rw [hfeq] at hsub3
    exact hsub3.map (fun f => (f.1, toExtracted f.2))
  · intro K km hK s1 tr h l k2 km2 hk2
    unfold removeStoryKind at h
    have hg : (!s.configuring && !true) = false := by simp
    rw [hg] at h
    dsimp only at h
    rw [hK] at h
    dsimp only at h
    injection h with h2
    rw [Prod.mk.injEq] at h2
    obtain ⟨hs1, htr⟩ := h2
    by_cases hkk : k2 = K
    · have hkm2 : km2 = km := by
        rw [hkk, hK] at hk2
        injection hk2 with h3
        exact h3.symm
      have hlook : klookup s1.kinds k2 =
          some { order := km.order, parameters := [], decorators := [] } := by
        rw [← hs1]
        dsimp only
        rw [hkk]
        exact klookup_kset_self s.kinds K _
      rw [kinds_order_addStoriesU s1 l k2 _ hlook, hkm2]
      rfl
    · have hlook : klookup s1.kinds k2 = some km2 := by
        rw [← hs1]
        dsimp only
        rw [klookup_kset_ne s.kinds K k2 _ hkk]
        exact hk2
      rw [kinds_order_addStoriesU s1 l k2 km2 hlook]
      rfl

/-- Witness for C7: with no custom sort, the two kind-B stories of c7S keep
their insertion order in extract, and after removing kind B and
re-registering a kind-B story both kind orders are preserved (B keeps order
0, A keeps order 1). -/
theorem c7_default_ordering_stable_witness :
    [("b--1", toExtracted c7itemB1), ("b--2", toExtracted c7itemB2)].Sublist
      (extract cmp0 c7S none) ∧
    (klookup (addStoriesU
        (okS (removeStoryKind c7S "B" true))
        [{ id := "b--9", kind := "B", name := "9", original := 9 }]).kinds
      "A").map (fun km3 => km3.order) = some 1 := by
  have h := c7_default_ordering_stable cmp0 c7S none (by decide)
  constructor
  · exact h.2.1 ("b--1", c7itemB1) ("b--2", c7itemB2) (by decide) rfl
      (by decide) (by decide)
  · exact h.2.2 "B" { order := 0, parameters := [], decorators := [] }
      (by decide) (okS (removeStoryKind c7S "B" true))
      (okTrace (removeStoryKind c7S "B" true)) rfl
      [{ id := "b--9", kind := "B", name := "9", original := 9 }] "A"
      { order := 1, parameters := [], decorators := [] } (by decide)

end StorybookClientApi
